import Mathlib

/-!
# goverter: converter configuration builder (config/converter.go)

A shallow embedding of the directive interpreter that builds a `Converter`
from directive lines.  Go strings are Lean strings, a Go `error` is an
`Option String` holding its message (`none` is `nil`), a Go function that
returns `(value, error)` returns a pair, and a function that mutates the
converter through its pointer returns the mutated converter.

The types and functions the file uses but does not declare (the package
loader, the string parsers, the common directive handler) are the fields of
`Context`: every theorem holds for all of them unless it says otherwise.
-/

namespace Goverter

/-! ## Types -/

/-- Go: type Format string. -/
abbrev Format := String

abbrev FormatStruct : Format := "struct"
abbrev FormatVariable : Format := "assign-variable"
abbrev FormatFunction : Format := "function"
abbrev FormatMethod : Format := "method"

abbrev configExtend : String := "extend"

/-- The types of other packages that the converter only stores or passes on:
`types.Type`, `method.Definition` (held by pointer), `enum.IDPattern`,
`config.Method` and the state of the `pkgload.PackageLoader`. -/
structure Sig where
  Typ : Type
  Def : Type
  Pat : Type
  Mth : Type
  Loader : Type

/-- Modelled from the spec: `enum.Config` is declared outside this file; the
spec gives it an enum toggle and the exclusion patterns. -/
structure EnumConfig (σ : Sig) where
  Enabled : Bool
  Excludes : List σ.Pat

/-- Modelled from the spec: `Common` is declared outside this file; the spec
gives it the enum settings and the regex that recognises a context parameter
(kept as its pattern source, `none` for a nil pointer). -/
structure Common (σ : Sig) where
  Enum : EnumConfig σ
  ArgContextRegex : Option String

structure ConverterConfig (σ : Sig) extends Common σ where
  Name : String
  OutputRaw : List String
  OutputFile : String
  OutputPackagePath : String
  OutputPackageName : String
  OutputFormat : Format
  OutputReceiver : String
  Extend : List σ.Def
  Comments : List String

structure Converter (σ : Sig) extends ConverterConfig σ where
  Package : String
  FileName : String
  typ : Option σ.Typ
  Methods : List σ.Mth
  Location : String

/-- Modelled from the spec: `RawLines` is declared outside this file; the code
reads its `Lines` and its `Location`. -/
structure RawLines where
  Location : String
  Lines : List String

/-- Modelled from the spec: `RawConverter` is declared outside this file; the
code reads the declaring file and package, the interface name (empty for a
variable-style declaration) and the local directive lines. -/
structure RawConverter where
  InterfaceName : String
  FileName : String
  PackageName : String
  PackagePath : String
  Converter : RawLines

/-- Go: method.ParseOpts as filled in by the `extend` directive;
`ParamsRequired` stands for `Params: method.ParamsRequired`. -/
structure ParseOpts (σ : Sig) where
  ErrorPrefix : String
  OutputPackagePath : String
  Converter : Option σ.Typ
  ParamsRequired : Bool
  ContextMatch : Option String

/-- The collaborators of config/converter.go that are not declared in it.
A function returning `(value, error)` returns the pair, so that the value it
hands back together with an error is the one the caller stores. -/
structure Context (σ : Sig) where
  /-- Go: parseCommand(value), the command word and the remainder. -/
  parseCommand : String → String × String
  /-- Go: parseString(rest). -/
  parseString : String → String × Option String
  /-- Go: parseEnum(name, empty, rest, values...). -/
  parseEnum : String → Bool → String → List Format → Format × Option String
  /-- Go: parseIDPattern(pkg, rest). -/
  parseIDPattern : String → String → σ.Pat × Option String
  /-- Go: parseCommon(&c.Common, cmd, rest); the first component is the
  mutated `Common`. -/
  parseCommon : Common σ → String → String → Common σ × Bool × Option String
  /-- Go: ctx.Loader.GetMatching(pkg, name, opts). -/
  GetMatching : σ.Loader → String → String → ParseOpts σ →
    σ.Loader × List σ.Def × Option String
  /-- Go: loader.GetOneRaw(pkg, name) followed by `.Type()`. -/
  GetOneRaw : σ.Loader → String → String → σ.Loader × Except String σ.Typ
  /-- Go: (types.Type).String(). -/
  typeString : σ.Typ → String
  /-- Go: formatLineError(raw, source, value, err). -/
  formatLineError : RawLines → String → String → String → String
  /-- Go: parseMethods(ctx, rawConverter, c). -/
  parseMethods : σ.Loader → RawConverter → Converter σ →
    Converter σ × σ.Loader × Option String

/-- The converter and the loader after a call, with the error it returned. -/
structure Outcome (σ : Sig) where
  c : Converter σ
  ld : σ.Loader
  err : Option String

/-! ## Go standard library -/

/-- Go: unicode.IsSpace. -/
def isSpace (ch : Char) : Bool :=
  ch = '\t' || ch = '\n' || ch.toNat = 0x0B || ch.toNat = 0x0C || ch = '\r' ||
  ch = ' ' || ch.toNat = 0x85 || ch.toNat = 0xA0 || ch.toNat = 0x1680 ||
  (0x2000 ≤ ch.toNat && ch.toNat ≤ 0x200A) || ch.toNat = 0x2028 ||
  ch.toNat = 0x2029 || ch.toNat = 0x202F || ch.toNat = 0x205F ||
  ch.toNat = 0x3000

/-- The loop of strings.Fields: `cur` holds the field being read, reversed. -/
def fieldsGo : List Char → List Char → List String
  | cur, [] => if cur = [] then [] else [String.mk cur.reverse]
  | cur, ch :: rest =>
    if isSpace ch then
      if cur = [] then fieldsGo [] rest
      else String.mk cur.reverse :: fieldsGo [] rest
    else fieldsGo (ch :: cur) rest

/-- Go: strings.Fields. -/
def Fields (s : String) : List String := fieldsGo [] s.data

/-- Go: strings.Cut on character lists: the parts before and after the first
occurrence of a non-empty `sep`. -/
def cutChars (sep : List Char) : List Char → Option (List Char × List Char)
  | [] => none
  | ch :: rest =>
    if sep.isPrefixOf (ch :: rest) then some ([], (ch :: rest).drop sep.length)
    else match cutChars sep rest with
      | some (a, b) => some (ch :: a, b)
      | none => none

/-- The loop of strings.SplitN with `n` pieces still allowed, `n > 0`. -/
def splitNChars (sep : List Char) : Nat → List Char → List (List Char)
  | 0, _ => []
  | 1, s => [s]
  | n + 2, s =>
    match cutChars sep s with
    | some (a, b) => a :: splitNChars sep (n + 1) b
    | none => [s]

/-- Go: strings.SplitN(s, sep, n) for a non-empty `sep` and `n ≥ 0`. -/
def SplitN (s sep : String) (n : Nat) : List String :=
  (splitNChars sep.data n s.data).map String.mk

/-- Go: strings.TrimSuffix. -/
def TrimSuffix (s suffix : String) : String :=
  if suffix.data.isSuffixOf s.data then
    String.mk (s.data.take (s.data.length - suffix.data.length))
  else s

/-- Go: the `%s` rendering of a `[]string`. -/
def fmtStrings (xs : List String) : String := "[" ++ " ".intercalate xs ++ "]"

/-- Go: filepath.Base with the separator `/` and no volume name. -/
def filepathBase (path : String) : String :=
  if path = "" then "."
  else
    let stripped := (path.data.reverse.dropWhile (fun ch => ch = '/')).reverse
    let last := (stripped.reverse.takeWhile (fun ch => ch ≠ '/')).reverse
    if last = [] then "/" else String.mk last

/-- Go: filepath.Ext: the suffix of the last path element that starts at its
final dot, empty when that element has no dot. -/
def filepathExt (path : String) : String :=
  let tail := path.data.reverse.takeWhile (fun ch => ch ≠ '/')
  if tail.contains '.' then
    String.mk ('.' :: (tail.takeWhile (fun ch => ch ≠ '.')).reverse)
  else ""

/-! ## config/converter.go -/

variable {σ : Sig}

/-- Go: var DefaultCommon. -/
def DefaultCommon : Common σ :=
  { Enum := { Enabled := true, Excludes := [] },
    ArgContextRegex := some "^ctx|^context" }

/-- Go: var DefaultConfigInterface. -/
def DefaultConfigInterface : ConverterConfig σ :=
  { toCommon := DefaultCommon,
    Name := "",
    OutputRaw := [],
    OutputFile := "./generated/generated.go",
    OutputPackagePath := "",
    OutputPackageName := "generated",
    OutputFormat := FormatStruct,
    OutputReceiver := "",
    Extend := [],
    Comments := [] }

/-- Go: var DefaultConfigVariables. -/
def DefaultConfigVariables : ConverterConfig σ :=
  { toCommon := DefaultCommon,
    Name := "",
    OutputRaw := [],
    OutputFile := "",
    OutputPackagePath := "",
    OutputPackageName := "",
    OutputFormat := FormatVariable,
    OutputReceiver := "",
    Extend := [],
    Comments := [] }

/-- Go: func (c *Converter) typeForMethod. -/
def Converter.typeForMethod (c : Converter σ) : Option σ.Typ :=
  if c.OutputFormat = FormatFunction then none else c.typ

/-- Go: func (c *Converter) requireStruct. -/
def Converter.requireStruct (c : Converter σ) : Option String :=
  if c.OutputFormat = FormatStruct then none
  else some "not allowed when using goverter:variables"

/-- Go: func (c *Converter) IDString. -/
def Converter.IDString (ctx : Context σ) (c : Converter σ) : String :=
  match c.typ with
  | none => "var definition"
  | some t => ctx.typeString t

/-- Go: func (conf *ConverterConfig) PackageID. -/
def ConverterConfig.PackageID (conf : ConverterConfig σ) : String :=
  if conf.OutputPackageName = "" then conf.OutputPackagePath
  else conf.OutputPackagePath ++ ":" ++ conf.OutputPackageName

/-- Go: func defaultOutputFile. -/
def defaultOutputFile (name : String) : String :=
  let f := filepathBase name
  let ext := filepathExt f
  TrimSuffix f ext ++ ".gen" ++ ext

/-- Go: func initConverter.  The loader is threaded through; the result is the
converter or the error (Go returns a nil converter with the error). -/
def initConverter (ctx : Context σ) (ld : σ.Loader) (rawConverter : RawConverter) :
    σ.Loader × Except String (Converter σ) :=
  if rawConverter.InterfaceName ≠ "" then
    match ctx.GetOneRaw ld rawConverter.PackagePath rawConverter.InterfaceName with
    | (ld1, Except.error e) => (ld1, Except.error e)
    | (ld1, Except.ok t) =>
      (ld1, Except.ok
        { toConverterConfig :=
            { (DefaultConfigInterface : ConverterConfig σ) with
              Name := rawConverter.InterfaceName ++ "Impl" },
          Package := rawConverter.PackagePath,
          FileName := rawConverter.FileName,
          typ := some t,
          Methods := [],
          Location := rawConverter.Converter.Location })
  else
    (ld, Except.ok
      { toConverterConfig :=
          { (DefaultConfigVariables : ConverterConfig σ) with
            OutputFile := defaultOutputFile rawConverter.FileName,
            OutputPackageName := rawConverter.PackageName,
            OutputPackagePath := rawConverter.PackagePath },
        Package := rawConverter.PackagePath,
        FileName := rawConverter.FileName,
        typ := none,
        Methods := [],
        Location := rawConverter.Converter.Location })

/-- Go: the message of the two field-count errors of parseConverterFormatLine,
`fmt.Errorf("invalid %s value: expected <want> but got %d: %s", "format", len(fields), fields)`. -/
def fieldCountError (want : String) (fields : List String) : String :=
  "invalid format value: expected " ++ want ++ " but got " ++
    toString fields.length ++ ": " ++ fmtStrings fields

/-- Go: func parseConverterFormatLine.  The converter returned with an error is
the converter as the function left it. -/
def parseConverterFormatLine (ctx : Context σ) (c : Converter σ) (rest : String) :
    Converter σ × Option String :=
  let fields := Fields rest
  match fields with
  | [] => (c, none)
  | f0 :: _ =>
    let r := ctx.parseEnum "format" false f0
      [FormatFunction, FormatStruct, FormatVariable, FormatMethod]
    let c1 : Converter σ := { c with OutputFormat := r.1 }
    match r.2 with
    | some e => (c1, some e)
    | none =>
      if c1.OutputFormat = FormatFunction ∨ c1.OutputFormat = FormatStruct then
        if fields.length ≠ 1 then (c1, some (fieldCountError "one value" fields))
        else (c1, none)
      else if c1.OutputFormat = FormatVariable then
        if fields.length ≠ 1 then (c1, some (fieldCountError "one value" fields))
        else if c1.typ.isNone ∧ c1.OutputFormat ≠ FormatVariable then
          (c1, some "unsupported format for goverter:variables")
        else if c1.typ.isSome ∧ c1.OutputFormat = FormatVariable then
          (c1, some "unsupported format for goverter:converter")
        else (c1, none)
      else if c1.OutputFormat = FormatMethod then
        if fields.length ≠ 2 then (c1, some (fieldCountError "two values" fields))
        else ({ c1 with OutputReceiver := fields.getD 1 "" }, none)
      else (c1, none)

/-- Go: the ParseOpts literal built for each name of an `extend` directive. -/
def extendOpts (c : Converter σ) : ParseOpts σ :=
  { ErrorPrefix := "error parsing type",
    OutputPackagePath := c.OutputPackagePath,
    Converter := c.typeForMethod,
    ParamsRequired := true,
    ContextMatch := c.ArgContextRegex }

/-- Go: the loop of the `extend` case of parseConverterLine: it resolves the
names in order, appends each result to Extend and breaks at the first error. -/
def extendLoop (ctx : Context σ) : List String → Converter σ → σ.Loader → Outcome σ
  | [], c, ld => { c := c, ld := ld, err := none }
  | name :: names, c, ld =>
    let r := ctx.GetMatching ld c.Package name (extendOpts c)
    match r.2.2 with
    | some e => { c := c, ld := r.1, err := some e }
    | none => extendLoop ctx names { c with Extend := c.Extend ++ r.2.1 } r.1

/-- Go: the `output:package` case of parseConverterLine. -/
def outputPackage (ctx : Context σ) (c : Converter σ) (rest : String) :
    Converter σ × Option String :=
  let c1 : Converter σ := { c with OutputPackageName := "" }
  let r := ctx.parseString rest
  match SplitN r.1 ":" 2 with
  | [p0, p1] => ({ c1 with OutputPackageName := p1, OutputPackagePath := p0 }, r.2)
  | [p0] => ({ c1 with OutputPackagePath := p0 }, r.2)
  | _ => (c1, r.2)

/-- Go: the message of the error that parseConverterLine returns for an
`output:format` directive on a converter with extend functions. -/
def formatAfterExtendError : String :=
  "Cannot change output:format after extend functions have been added.\n" ++
    "Move the extend below the output:format setting."

/-- Go: func parseConverterLine. -/
def parseConverterLine (ctx : Context σ) (c : Converter σ) (ld : σ.Loader)
    (value : String) : Outcome σ :=
  let cmd := (ctx.parseCommand value).1
  let rest := (ctx.parseCommand value).2
  if cmd = "converter" ∨ cmd = "variables" then
    { c := c, ld := ld, err := none }
  else if cmd = "name" then
    match c.requireStruct with
    | some e => { c := c, ld := ld, err := some e }
    | none =>
      { c := { c with Name := (ctx.parseString rest).1 }, ld := ld,
        err := (ctx.parseString rest).2 }
  else if cmd = "output:raw" then
    { c := { c with OutputRaw := c.OutputRaw ++ [rest] }, ld := ld, err := none }
  else if cmd = "output:file" then
    { c := { c with OutputFile := (ctx.parseString rest).1 }, ld := ld,
      err := (ctx.parseString rest).2 }
  else if cmd = "output:format" then
    if c.Extend.length ≠ 0 then
      { c := c, ld := ld, err := some formatAfterExtendError }
    else
      { c := (parseConverterFormatLine ctx c rest).1, ld := ld,
        err := (parseConverterFormatLine ctx c rest).2 }
  else if cmd = "output:package" then
    { c := (outputPackage ctx c rest).1, ld := ld, err := (outputPackage ctx c rest).2 }
  else if cmd = "struct:comment" then
    match c.requireStruct with
    | some e => { c := c, ld := ld, err := some e }
    | none => { c := { c with Comments := c.Comments ++ [rest] }, ld := ld, err := none }
  else if cmd = "enum:exclude" then
    let r := ctx.parseIDPattern c.Package rest
    { c := { c with Enum := { c.Enum with Excludes := c.Enum.Excludes ++ [r.1] } },
      ld := ld, err := r.2 }
  else if cmd = configExtend then
    extendLoop ctx (Fields rest) c ld
  else
    let r := ctx.parseCommon c.toCommon cmd rest
    { c := { c with toCommon := r.1 }, ld := ld, err := r.2.2 }

/-- Go: func parseConverterLines.  The loop stops at the first line that
returns an error and returns it wrapped by formatLineError. -/
def parseConverterLinesLoop (ctx : Context σ) (raw : RawLines) (source : String) :
    List String → Converter σ → σ.Loader → Outcome σ
  | [], c, ld => { c := c, ld := ld, err := none }
  | value :: values, c, ld =>
    let r := parseConverterLine ctx c ld value
    match r.err with
    | some e => { c := r.c, ld := r.ld, err := some (ctx.formatLineError raw source value e) }
    | none => parseConverterLinesLoop ctx raw source values r.c r.ld

/-- Go: func parseConverterLines. -/
def parseConverterLines (ctx : Context σ) (c : Converter σ) (ld : σ.Loader)
    (source : String) (raw : RawLines) : Outcome σ :=
  parseConverterLinesLoop ctx raw source raw.Lines c ld

/-- Go: func parseConverter.  The result is the loader afterwards, the
converter returned (`none` for Go's nil) and the error. -/
def parseConverter (ctx : Context σ) (ld : σ.Loader) (rawConverter : RawConverter)
    (global : RawLines) : σ.Loader × Option (Converter σ) × Option String :=
  match initConverter ctx ld rawConverter with
  | (ld0, Except.error e) => (ld0, none, some e)
  | (ld0, Except.ok c) =>
    let g := parseConverterLines ctx c ld0 "global" global
    match g.err with
    | some e => (g.ld, none, some e)
    | none =>
      let l := parseConverterLines ctx g.c g.ld (g.c.IDString ctx) rawConverter.Converter
      match l.err with
      | some e => (l.ld, none, some e)
      | none =>
        let m := ctx.parseMethods l.ld rawConverter l.c
        (m.2.1, some m.1, m.2.2)

/-! ## A concrete loader and concrete parsers

The examples below run the code with these collaborators. -/

/-- Types are named by their display string, definitions and patterns by
their text, and the loader state is the list of names it was asked for. -/
abbrev sampleSig : Sig :=
  { Typ := String, Def := String, Pat := String, Mth := Unit, Loader := List String }

/-- Go: strings.TrimSpace. -/
def TrimSpace (s : String) : String :=
  String.mk ((s.data.dropWhile isSpace).reverse.dropWhile isSpace).reverse

/-- Modelled from the spec: parseCommand is declared outside this file; a
directive line is a command word followed by its raw argument string, split
here at the first blank. -/
def sampleParseCommand (value : String) : String × String :=
  match SplitN value " " 2 with
  | [cmd, rest] => (cmd, TrimSpace rest)
  | _ => (value, "")

/-- Modelled from the spec: parseString is declared outside this file; the
spec says that the string parse may fail: here the empty remainder fails and
any other remainder is the value. -/
def sampleParseString (rest : String) : String × Option String :=
  if rest = "" then ("", some "must not be empty") else (rest, none)

/-- Modelled from the spec: parseEnum is declared outside this file; the
token must match one of the values exactly, any other token is an error that
names it. -/
def sampleParseEnum (name : String) (empty : Bool) (rest : String)
    (values : List Format) : Format × Option String :=
  if rest = "" ∧ empty = true then ("", none)
  else if values.contains rest then (rest, none)
  else ("", some ("invalid " ++ name ++ " value: " ++ rest))

/-- Modelled from the spec: the package loader is outside this file; it
resolves a name to its definitions or fails.  Here the name `missing` fails
and every other name resolves to one definition. -/
def sampleGetMatching (ld : List String) (pkg name : String) (_opts : ParseOpts sampleSig) :
    List String × List String × Option String :=
  if name = "missing" then (ld ++ [name], [], some ("error parsing type: " ++ name))
  else (ld ++ [name], [pkg ++ "." ++ name], none)

/-- Modelled from the spec: the package loader is outside this file; it
resolves a named type or fails with a resolution error. -/
def sampleGetOneRaw (ld : List String) (pkg name : String) :
    List String × Except String String :=
  if name = "missing" then (ld ++ [name], Except.error ("not found: " ++ name))
  else (ld ++ [name], Except.ok (pkg ++ "." ++ name))

/-- Modelled from the spec: formatLineError is declared outside this file; it
wraps an error with the scope label and the raw line. -/
def sampleFormatLineError (raw : RawLines) (source value err : String) : String :=
  raw.Location ++ ": " ++ source ++ ": " ++ value ++ ": " ++ err

/-- Modelled from the spec: parseCommon, parseIDPattern and parseMethods are
declared outside this file.  Here the common handler knows no command, every
pattern parses to its text and parseMethods adds nothing. -/
def sampleCtx : Context sampleSig :=
  { parseCommand := sampleParseCommand,
    parseString := sampleParseString,
    parseEnum := sampleParseEnum,
    parseIDPattern := fun _ rest => (rest, none),
    parseCommon := fun common cmd _ => (common, false, some ("unknown setting: " ++ cmd)),
    GetMatching := sampleGetMatching,
    GetOneRaw := sampleGetOneRaw,
    typeString := fun t => t,
    formatLineError := sampleFormatLineError,
    parseMethods := fun ld _ c => (c, ld, none) }

/-- A variable-style converter as initConverter builds it for `orders.go`. -/
def sampleVariables : Converter sampleSig :=
  { toConverterConfig :=
      { (DefaultConfigVariables : ConverterConfig sampleSig) with
        OutputFile := "orders.gen.go",
        OutputPackageName := "shop",
        OutputPackagePath := "example.org/shop" },
    Package := "example.org/shop",
    FileName := "orders.go",
    typ := none,
    Methods := [],
    Location := "orders.go:3" }

/-- An interface-style converter as initConverter builds it for the
interface `Converter`. -/
def sampleInterface : Converter sampleSig :=
  { toConverterConfig :=
      { (DefaultConfigInterface : ConverterConfig sampleSig) with
        Name := "ConverterImpl" },
    Package := "example.org/shop",
    FileName := "orders.go",
    typ := some "example.org/shop.Converter",
    Methods := [],
    Location := "orders.go:3" }

/-- The declaration behind `sampleVariables`. -/
def sampleRawVariables : RawConverter :=
  { InterfaceName := "", FileName := "orders.go", PackageName := "shop",
    PackagePath := "example.org/shop",
    Converter := { Location := "orders.go:3", Lines := [] } }

/-- The declaration behind `sampleInterface`. -/
def sampleRawInterface : RawConverter :=
  { InterfaceName := "Converter", FileName := "orders.go", PackageName := "shop",
    PackagePath := "example.org/shop",
    Converter := { Location := "orders.go:3", Lines := [] } }

/-- The interface-style converter after one extend function was added. -/
def sampleExtended : Converter sampleSig :=
  { sampleInterface with Extend := ["example.org/shop.ToID"] }

/-- The loader's answers for the names of an `extend` directive, asked in
order with the loader threaded through, whether or not a name fails: the
results "for n1, ..., nk in that order" that the `extend` loop is compared
with.  The result is the loader afterwards and, for each name, the
definitions and the error. -/
def specResolveInOrder (ctx : Context σ) (pkg : String) (opts : ParseOpts σ) :
    List String → σ.Loader → σ.Loader × List (List σ.Def × Option String)
  | [], ld => (ld, [])
  | name :: names, ld =>
    let r := ctx.GetMatching ld pkg name opts
    ((specResolveInOrder ctx pkg opts names r.1).1,
      (r.2.1, r.2.2) :: (specResolveInOrder ctx pkg opts names r.1).2)

/-! # Theorems -/

/-! ## Package identity -/

/-- C1: PackageID returns OutputPackagePath when OutputPackageName is empty and
OutputPackagePath, a colon and OutputPackageName otherwise; path "a" with an
empty name gives "a", path "a" with name "b" gives "a:b". -/
theorem C1_PackageID (conf : ConverterConfig σ) :
    (conf.OutputPackageName = "" → conf.PackageID = conf.OutputPackagePath) ∧
    (conf.OutputPackageName ≠ "" →
      conf.PackageID = conf.OutputPackagePath ++ ":" ++ conf.OutputPackageName) ∧
    (conf.OutputPackagePath = "a" → conf.OutputPackageName = "" → conf.PackageID = "a") ∧
    (conf.OutputPackagePath = "a" → conf.OutputPackageName = "b" → conf.PackageID = "a:b") := by
  refine ⟨?_, ?_, ?_, ?_⟩
  · intro h
    simp [ConverterConfig.PackageID, h]
  · intro h
    simp [ConverterConfig.PackageID, h]
  · intro hp hn
    simp [ConverterConfig.PackageID, hp, hn]
  · intro hp hn
    simp [ConverterConfig.PackageID, hp, hn]

/-- C1 at the configuration with path "a" and name "b". -/
theorem C1_PackageID_witness :
    ({ (DefaultConfigVariables : ConverterConfig sampleSig) with
        OutputPackagePath := "a", OutputPackageName := "b" }).OutputPackagePath = "a" ∧
    ({ (DefaultConfigVariables : ConverterConfig sampleSig) with
        OutputPackagePath := "a", OutputPackageName := "b" }).OutputPackageName = "b" ∧
    ({ (DefaultConfigVariables : ConverterConfig sampleSig) with
        OutputPackagePath := "a", OutputPackageName := "b" }).PackageID = "a:b" :=
  ⟨rfl, rfl, (C1_PackageID _).2.2.2 rfl rfl⟩

/-! ## Folding lines -/

/-- The converter and the loader after a fold, and whether it failed, do not
depend on the label and the raw lines used to wrap the error. -/
theorem loop_label_irrelevant (ctx : Context σ) (raw raw2 : RawLines) (source source2 : String)
    (lines : List String) (c : Converter σ) (ld : σ.Loader) :
    (parseConverterLinesLoop ctx raw source lines c ld).c =
      (parseConverterLinesLoop ctx raw2 source2 lines c ld).c ∧
    (parseConverterLinesLoop ctx raw source lines c ld).ld =
      (parseConverterLinesLoop ctx raw2 source2 lines c ld).ld ∧
    ((parseConverterLinesLoop ctx raw source lines c ld).err = none ↔
      (parseConverterLinesLoop ctx raw2 source2 lines c ld).err = none) := by
  induction lines generalizing c ld with
  | nil => simp [parseConverterLinesLoop]
  | cons v vs ih =>
    simp only [parseConverterLinesLoop]
    cases h : (parseConverterLine ctx c ld v).err with
    | none => simpa using ih _ _
    | some e => simp

/-- Folding a concatenation is folding the first list and, when that
succeeded, the second list from where the first fold ended. -/
theorem loop_append (ctx : Context σ) (raw : RawLines) (source : String)
    (xs ys : List String) (c : Converter σ) (ld : σ.Loader) :
    parseConverterLinesLoop ctx raw source (xs ++ ys) c ld =
      match (parseConverterLinesLoop ctx raw source xs c ld).err with
      | some _ => parseConverterLinesLoop ctx raw source xs c ld
      | none =>
        parseConverterLinesLoop ctx raw source ys
          (parseConverterLinesLoop ctx raw source xs c ld).c
          (parseConverterLinesLoop ctx raw source xs c ld).ld := by
  induction xs generalizing c ld with
  | nil => simp [parseConverterLinesLoop]
  | cons v vs ih =>
    simp only [List.cons_append, parseConverterLinesLoop]
    cases h : (parseConverterLine ctx c ld v).err with
    | none => simpa using ih _ _
    | some e => simp

/-- C2: folding the global lines and then the local lines succeeds exactly when
folding the concatenated list succeeds, and then both end with the same
converter (and the same loader). -/
theorem C2_global_then_local_is_concat (ctx : Context σ) (c : Converter σ) (ld : σ.Loader)
    (global loc : RawLines) (gsource lsource source location : String) :
    let g := parseConverterLines ctx c ld gsource global
    let l := parseConverterLines ctx g.c g.ld lsource loc
    let s := parseConverterLines ctx c ld source
      { Location := location, Lines := global.Lines ++ loc.Lines }
    ((g.err = none ∧ l.err = none) ↔ s.err = none) ∧
    (s.err = none → l.c = s.c ∧ l.ld = s.ld) := by
  intro g l s
  have hg := loop_label_irrelevant ctx global
    { Location := location, Lines := global.Lines ++ loc.Lines } gsource source global.Lines c ld
  have hl := loop_label_irrelevant ctx loc
    { Location := location, Lines := global.Lines ++ loc.Lines } lsource source loc.Lines g.c g.ld
  have hs : s = parseConverterLinesLoop ctx
      { Location := location, Lines := global.Lines ++ loc.Lines } source
      (global.Lines ++ loc.Lines) c ld := rfl
  rw [loop_append] at hs
  simp only [g, l, parseConverterLines] at *
  cases hgb : (parseConverterLinesLoop ctx
      { Location := location, Lines := global.Lines ++ loc.Lines } source global.Lines c ld).err with
  | none =>
    rw [hgb] at hs hg
    simp only at hs
    rw [hs, hg.1, hg.2.1] at *
    simp [hg.2.2, hl.1, hl.2.1, hl.2.2]
  | some e =>
    rw [hgb] at hs hg
    simp only at hs
    rw [hs]
    simp [hgb, hg.2.2]

/-! ## What a directive line can change -/

/-- Every field that strings.Fields returns is non-empty. -/
theorem fieldsGo_ne_empty (s cur : List Char) :
    ∀ w ∈ fieldsGo cur s, w ≠ "" := by
  induction s generalizing cur with
  | nil =>
    intro w hw
    by_cases hc : cur = []
    · simp [fieldsGo, hc] at hw
    · simp only [fieldsGo, hc, if_false, List.mem_singleton] at hw
      intro h
      rw [hw] at h
      have := congrArg String.data h
      simp at this
      exact hc this
  | cons ch rest ih =>
    intro w hw
    simp only [fieldsGo] at hw
    by_cases hsp : isSpace ch = true
    · by_cases hc : cur = []
      · simp only [hsp, hc, if_true] at hw
        exact ih [] w hw
      · simp only [hsp, hc, if_true, if_false, List.mem_cons] at hw
        rcases hw with hw | hw
        · intro h
          rw [hw] at h
          have := congrArg String.data h
          simp at this
          exact hc this
        · exact ih [] w hw
    · simp only [hsp] at hw
      exact ih _ w hw

/-- Every field that strings.Fields returns is non-empty. -/
theorem Fields_ne_empty (s : String) : ∀ w ∈ Fields s, w ≠ "" :=
  fieldsGo_ne_empty s.data []

/-- The `extend` loop only appends to Extend. -/
theorem extendLoop_c (ctx : Context σ) (names : List String) (c : Converter σ) (ld : σ.Loader) :
    ∃ more, (extendLoop ctx names c ld).c = { c with Extend := c.Extend ++ more } := by
  induction names generalizing c ld with
  | nil => exact ⟨[], by simp [extendLoop]⟩
  | cons n ns ih =>
    simp only [extendLoop]
    cases h : (ctx.GetMatching ld c.Package n (extendOpts c)).2.2 with
    | some e => exact ⟨[], by simp⟩
    | none =>
      obtain ⟨more, hm⟩ := ih { c with Extend := c.Extend ++ (ctx.GetMatching ld c.Package n (extendOpts c)).2.1 }
        (ctx.GetMatching ld c.Package n (extendOpts c)).1
      exact ⟨(ctx.GetMatching ld c.Package n (extendOpts c)).2.1 ++ more, by simp [hm]⟩

/-- An `output:format` remainder only writes OutputFormat and OutputReceiver. -/
theorem formatLine_c (ctx : Context σ) (c : Converter σ) (rest : String) :
    ∃ f r, (parseConverterFormatLine ctx c rest).1 =
      { c with OutputFormat := f, OutputReceiver := r } := by
  unfold parseConverterFormatLine
  cases hf : Fields rest with
  | nil => exact ⟨c.OutputFormat, c.OutputReceiver, rfl⟩
  | cons f0 fs =>
    simp only
    cases he : (ctx.parseEnum "format" false f0
        [FormatFunction, FormatStruct, FormatVariable, FormatMethod]).2 with
    | some e => exact ⟨_, c.OutputReceiver, rfl⟩
    | none =>
      simp only
      split_ifs
      all_goals first
        | exact ⟨_, c.OutputReceiver, rfl⟩
        | exact ⟨_, _, rfl⟩

/-- The `output:package` case only writes the package path and name. -/
theorem outputPackage_c (ctx : Context σ) (c : Converter σ) (rest : String) :
    ∃ p n, (outputPackage ctx c rest).1 =
      { c with OutputPackagePath := p, OutputPackageName := n } := by
  unfold outputPackage
  simp only
  split
  · exact ⟨_, _, rfl⟩
  · exact ⟨_, _, rfl⟩
  · exact ⟨c.OutputPackagePath, _, rfl⟩

/-- The `output:format` case of parseConverterLine. -/
theorem line_format (ctx : Context σ) (c : Converter σ) (ld : σ.Loader) (value : String)
    (h : (ctx.parseCommand value).1 = "output:format") :
    parseConverterLine ctx c ld value =
      if c.Extend.length ≠ 0 then
        { c := c, ld := ld,
          err := some formatAfterExtendError }
      else
        { c := (parseConverterFormatLine ctx c (ctx.parseCommand value).2).1, ld := ld,
          err := (parseConverterFormatLine ctx c (ctx.parseCommand value).2).2 } := by
  unfold parseConverterLine
  simp [h]

/-- No directive line writes the subject type, the package, the file name, the
location or the methods, and Extend only grows. -/
theorem line_frame (ctx : Context σ) (c : Converter σ) (ld : σ.Loader) (value : String) :
    (parseConverterLine ctx c ld value).c.typ = c.typ ∧
    (parseConverterLine ctx c ld value).c.Package = c.Package ∧
    (parseConverterLine ctx c ld value).c.FileName = c.FileName ∧
    (parseConverterLine ctx c ld value).c.Location = c.Location ∧
    (parseConverterLine ctx c ld value).c.Methods = c.Methods ∧
    c.Extend <+: (parseConverterLine ctx c ld value).c.Extend := by
  by_cases h : (ctx.parseCommand value).1 = "output:format"
  · obtain ⟨f, r, hf⟩ := formatLine_c ctx c (ctx.parseCommand value).2
    rw [line_format ctx c ld value h]
    split_ifs
    · simp
    · simp [hf]
  · obtain ⟨more, hm⟩ := extendLoop_c ctx (Fields (ctx.parseCommand value).2) c ld
    obtain ⟨p, n, hp⟩ := outputPackage_c ctx c (ctx.parseCommand value).2
    generalize hr : parseConverterLine ctx c ld value = res
    unfold parseConverterLine at hr
    simp only at hr
    split_ifs at hr
    all_goals (try (cases hrs : c.requireStruct <;> rw [hrs] at hr <;> simp only at hr))
    all_goals (subst hr; simp_all)

/-- A directive line whose command is not `output:format` leaves OutputFormat
and OutputReceiver as they were. -/
theorem line_frame_not_format (ctx : Context σ) (c : Converter σ) (ld : σ.Loader)
    (value : String) (h : (ctx.parseCommand value).1 ≠ "output:format") :
    (parseConverterLine ctx c ld value).c.OutputFormat = c.OutputFormat ∧
    (parseConverterLine ctx c ld value).c.OutputReceiver = c.OutputReceiver := by
  obtain ⟨more, hm⟩ := extendLoop_c ctx (Fields (ctx.parseCommand value).2) c ld
  obtain ⟨p, n, hp⟩ := outputPackage_c ctx c (ctx.parseCommand value).2
  generalize hr : parseConverterLine ctx c ld value = res
  unfold parseConverterLine at hr
  simp only at hr
  split_ifs at hr
  all_goals (try (cases hrs : c.requireStruct <;> rw [hrs] at hr <;> simp only at hr))
  all_goals (subst hr; simp_all)

/-- On a converter whose Extend list is non-empty an `output:format` line
returns the error about extend functions and changes nothing. -/
theorem format_rejected_of_extend (ctx : Context σ) (c : Converter σ) (ld : σ.Loader)
    (value : String) (hext : c.Extend ≠ [])
    (hcmd : (ctx.parseCommand value).1 = "output:format") :
    parseConverterLine ctx c ld value =
      { c := c, ld := ld, err := some formatAfterExtendError } := by
  have hlen : c.Extend.length ≠ 0 := by
    simpa [List.length_eq_zero] using hext
  rw [line_format ctx c ld value hcmd, if_pos hlen]

/-- C3: on a converter whose Extend list is non-empty every directive line
leaves OutputFormat unchanged and Extend non-empty, and an output:format line
returns the error about extend functions and changes nothing. -/
theorem C3_format_frozen_after_extend (ctx : Context σ) (c : Converter σ) (ld : σ.Loader)
    (value : String) (hext : c.Extend ≠ []) :
    (parseConverterLine ctx c ld value).c.OutputFormat = c.OutputFormat ∧
    (parseConverterLine ctx c ld value).c.Extend ≠ [] ∧
    ((ctx.parseCommand value).1 = "output:format" →
      (parseConverterLine ctx c ld value).err =
        some formatAfterExtendError ∧
      (parseConverterLine ctx c ld value).c.OutputFormat = c.OutputFormat ∧
      (parseConverterLine ctx c ld value).c.OutputReceiver = c.OutputReceiver ∧
      (parseConverterLine ctx c ld value).c = c) := by
  have hfr := line_frame ctx c ld value
  have hne : (parseConverterLine ctx c ld value).c.Extend ≠ [] := by
    intro h0
    rw [h0] at hfr
    exact hext (List.prefix_nil.mp hfr.2.2.2.2.2)
  by_cases hcmd : (ctx.parseCommand value).1 = "output:format"
  · have hl := format_rejected_of_extend ctx c ld value hext hcmd
    refine ⟨by rw [hl], hne, fun _ => ?_⟩
    rw [hl]
    exact ⟨rfl, rfl, rfl, rfl⟩
  · exact ⟨(line_frame_not_format ctx c ld value hcmd).1, hne, fun h => absurd h hcmd⟩

/-- C3 at the converter with one extend function and the line
`output:format function`. -/
theorem C3_format_frozen_after_extend_witness :
    sampleExtended.Extend ≠ [] ∧
    (sampleCtx.parseCommand "output:format function").1 = "output:format" ∧
    (parseConverterLine sampleCtx sampleExtended [] "output:format function").err =
      some formatAfterExtendError ∧
    (parseConverterLine sampleCtx sampleExtended [] "output:format function").c.OutputFormat =
      FormatStruct :=
  ⟨by decide, by decide,
    ((C3_format_frozen_after_extend sampleCtx sampleExtended [] "output:format function"
      (by decide)).2.2 (by decide)).1,
    (C3_format_frozen_after_extend sampleCtx sampleExtended [] "output:format function"
      (by decide)).1⟩

/-- A fold writes neither the subject type nor the declaration's package, file
name, location and methods, and Extend only grows. -/
theorem loop_frame (ctx : Context σ) (raw : RawLines) (source : String) (lines : List String)
    (c : Converter σ) (ld : σ.Loader) :
    (parseConverterLinesLoop ctx raw source lines c ld).c.typ = c.typ ∧
    (parseConverterLinesLoop ctx raw source lines c ld).c.Package = c.Package ∧
    (parseConverterLinesLoop ctx raw source lines c ld).c.FileName = c.FileName ∧
    (parseConverterLinesLoop ctx raw source lines c ld).c.Location = c.Location ∧
    (parseConverterLinesLoop ctx raw source lines c ld).c.Methods = c.Methods ∧
    c.Extend <+: (parseConverterLinesLoop ctx raw source lines c ld).c.Extend := by
  induction lines generalizing c ld with
  | nil => simp [parseConverterLinesLoop]
  | cons v vs ih =>
    have hv := line_frame ctx c ld v
    simp only [parseConverterLinesLoop]
    cases h : (parseConverterLine ctx c ld v).err with
    | some e => simpa using hv
    | none =>
      have hi := ih (parseConverterLine ctx c ld v).c (parseConverterLine ctx c ld v).ld
      simp only
      refine ⟨hi.1.trans hv.1, hi.2.1.trans hv.2.1, hi.2.2.1.trans hv.2.2.1,
        hi.2.2.2.1.trans hv.2.2.2.1, hi.2.2.2.2.1.trans hv.2.2.2.2.1,
        hv.2.2.2.2.2.trans hi.2.2.2.2.2⟩

/-- C4 as stated fails: an `extend` directive without names succeeds and adds
no function, and the `output:format` directive after it succeeds. -/
theorem C4_counterexample :
    (sampleCtx.parseCommand "extend").1 = configExtend ∧
    (parseConverterLine sampleCtx sampleInterface [] "extend").err = none ∧
    (sampleCtx.parseCommand "output:format function").1 = "output:format" ∧
    (parseConverterLine sampleCtx
      (parseConverterLine sampleCtx sampleInterface [] "extend").c
      (parseConverterLine sampleCtx sampleInterface [] "extend").ld
      "output:format function").err = none := by
  decide

/-- C4, amended: after an `extend` directive that returns no error and leaves
Extend non-empty, every later `output:format` directive returns the error
about extend functions, whatever its remainder and whatever lines were folded
in between. -/
theorem C4_format_rejected_after_extend_added (ctx : Context σ) (c : Converter σ)
    (ld : σ.Loader) (value : String)
    (_hcmd : (ctx.parseCommand value).1 = configExtend)
    (_hok : (parseConverterLine ctx c ld value).err = none)
    (hadd : (parseConverterLine ctx c ld value).c.Extend ≠ [])
    (raw : RawLines) (source : String) (between : List String) (later : String)
    (hlater : (ctx.parseCommand later).1 = "output:format") :
    (parseConverterLine ctx
      (parseConverterLinesLoop ctx raw source between
        (parseConverterLine ctx c ld value).c (parseConverterLine ctx c ld value).ld).c
      (parseConverterLinesLoop ctx raw source between
        (parseConverterLine ctx c ld value).c (parseConverterLine ctx c ld value).ld).ld
      later).err = some formatAfterExtendError := by
  have hfr := loop_frame ctx raw source between
    (parseConverterLine ctx c ld value).c (parseConverterLine ctx c ld value).ld
  have hne : (parseConverterLinesLoop ctx raw source between
      (parseConverterLine ctx c ld value).c (parseConverterLine ctx c ld value).ld).c.Extend ≠ [] := by
    intro h0
    rw [h0] at hfr
    exact hadd (List.prefix_nil.mp hfr.2.2.2.2.2)
  rw [format_rejected_of_extend ctx _ _ later hne hlater]

/-- C4, amended, at `extend ToID` on the interface-style converter, followed by
an `output:raw` line and then `output:format function`. -/
theorem C4_format_rejected_after_extend_added_witness :
    (sampleCtx.parseCommand "extend ToID").1 = configExtend ∧
    (parseConverterLine sampleCtx sampleInterface [] "extend ToID").err = none ∧
    (parseConverterLine sampleCtx sampleInterface [] "extend ToID").c.Extend ≠ [] ∧
    (sampleCtx.parseCommand "output:format function").1 = "output:format" ∧
    (parseConverterLine sampleCtx
      (parseConverterLinesLoop sampleCtx { Location := "", Lines := [] } "global"
        ["output:raw // x"]
        (parseConverterLine sampleCtx sampleInterface [] "extend ToID").c
        (parseConverterLine sampleCtx sampleInterface [] "extend ToID").ld).c
      (parseConverterLinesLoop sampleCtx { Location := "", Lines := [] } "global"
        ["output:raw // x"]
        (parseConverterLine sampleCtx sampleInterface [] "extend ToID").c
        (parseConverterLine sampleCtx sampleInterface [] "extend ToID").ld).ld
      "output:format function").err = some formatAfterExtendError :=
  ⟨by decide, by decide, by decide, by decide,
    C4_format_rejected_after_extend_added sampleCtx sampleInterface [] "extend ToID"
      (by decide) (by decide) (by decide) { Location := "", Lines := [] } "global"
      ["output:raw // x"] "output:format function" (by decide)⟩

/-! ## Format and receiver -/

/-- What parseConverterFormatLine does to OutputFormat and OutputReceiver:
nothing at all (no field), or it leaves the receiver and, when it succeeds,
ends in a format other than method, or it succeeds with the format method and
the second of exactly two fields as the receiver. -/
theorem formatLine_step (ctx : Context σ) (c : Converter σ) (rest : String) :
    parseConverterFormatLine ctx c rest = (c, none) ∨
    ((parseConverterFormatLine ctx c rest).1.OutputReceiver = c.OutputReceiver ∧
      ((parseConverterFormatLine ctx c rest).2 = none →
        (parseConverterFormatLine ctx c rest).1.OutputFormat ≠ FormatMethod)) ∨
    ((parseConverterFormatLine ctx c rest).2 = none ∧
      (parseConverterFormatLine ctx c rest).1.OutputFormat = FormatMethod ∧
      ∃ t, Fields rest = [t, (parseConverterFormatLine ctx c rest).1.OutputReceiver]) := by
  unfold parseConverterFormatLine
  cases hf : Fields rest with
  | nil => exact Or.inl rfl
  | cons f0 fs =>
    right
    simp only
    cases he : (ctx.parseEnum "format" false f0
        [FormatFunction, FormatStruct, FormatVariable, FormatMethod]).2 with
    | some e => left; simp
    | none =>
      simp only
      split_ifs with h1 h2 h3 h4 h5 h6 h7 h8
      · left; simp
      · left
        refine ⟨rfl, fun _ => ?_⟩
        rcases h1 with h1 | h1 <;> simp only [h1] <;> decide
      · left; simp
      · left; simp
      · left; simp
      · left
        refine ⟨rfl, fun _ => ?_⟩
        simp only [h3]
        decide
      · left; simp
      · right
        refine ⟨rfl, h7, ?_⟩
        have hlen : (f0 :: fs).length = 2 := by
          by_contra hne
          exact h8 hne
        match fs, hlen with
        | [r], _ => exact ⟨f0, rfl⟩
      · left
        exact ⟨rfl, fun _ => h7⟩

/-- What a directive line does to OutputFormat and OutputReceiver: it leaves
both, or it leaves the receiver and, when it succeeds, ends in a format other
than method, or it succeeds with the format method and a non-empty receiver. -/
theorem line_step (ctx : Context σ) (c : Converter σ) (ld : σ.Loader) (value : String) :
    ((parseConverterLine ctx c ld value).c.OutputFormat = c.OutputFormat ∧
      (parseConverterLine ctx c ld value).c.OutputReceiver = c.OutputReceiver) ∨
    ((parseConverterLine ctx c ld value).c.OutputReceiver = c.OutputReceiver ∧
      ((parseConverterLine ctx c ld value).err = none →
        (parseConverterLine ctx c ld value).c.OutputFormat ≠ FormatMethod)) ∨
    ((parseConverterLine ctx c ld value).err = none ∧
      (parseConverterLine ctx c ld value).c.OutputFormat = FormatMethod ∧
      (parseConverterLine ctx c ld value).c.OutputReceiver ≠ "") := by
  by_cases hcmd : (ctx.parseCommand value).1 = "output:format"
  · rw [line_format ctx c ld value hcmd]
    split_ifs with hlen
    · exact Or.inl ⟨rfl, rfl⟩
    · rcases formatLine_step ctx c (ctx.parseCommand value).2 with h | h | h
      · left
        simp [h]
      · right; left
        exact h
      · right; right
        obtain ⟨h1, h2, t, ht⟩ := h
        refine ⟨h1, h2, ?_⟩
        apply Fields_ne_empty (ctx.parseCommand value).2
        rw [ht]
        simp
  · exact Or.inl (line_frame_not_format ctx c ld value hcmd)

/-- A fold whose lines all succeed keeps `OutputFormat == method` implying a
non-empty OutputReceiver. -/
theorem loop_method_receiver (ctx : Context σ) (raw : RawLines) (source : String)
    (lines : List String) (c : Converter σ) (ld : σ.Loader)
    (hinv : c.OutputFormat = FormatMethod → c.OutputReceiver ≠ "")
    (hok : (parseConverterLinesLoop ctx raw source lines c ld).err = none) :
    (parseConverterLinesLoop ctx raw source lines c ld).c.OutputFormat = FormatMethod →
      (parseConverterLinesLoop ctx raw source lines c ld).c.OutputReceiver ≠ "" := by
  induction lines generalizing c ld with
  | nil => simpa [parseConverterLinesLoop] using hinv
  | cons v vs ih =>
    simp only [parseConverterLinesLoop] at hok ⊢
    cases h : (parseConverterLine ctx c ld v).err with
    | some e => simp [h] at hok
    | none =>
      rw [h] at hok
      simp only at hok ⊢
      apply ih _ _ _ hok
      rcases line_step ctx c ld v with ⟨h1, h2⟩ | ⟨h1, h2⟩ | ⟨_, _, h3⟩
      · rw [h1, h2]; exact hinv
      · intro hm; exact absurd hm (h2 h)
      · intro _; exact h3

/-- A fold whose lines all succeed leaves OutputReceiver as it was when
OutputFormat is not method after any of its lines. -/
theorem loop_receiver_kept (ctx : Context σ) (raw : RawLines) (source : String)
    (lines : List String) (c : Converter σ) (ld : σ.Loader)
    (hok : (parseConverterLinesLoop ctx raw source lines c ld).err = none)
    (hnever : ∀ k, 1 ≤ k → k ≤ lines.length →
      (parseConverterLinesLoop ctx raw source (lines.take k) c ld).c.OutputFormat ≠ FormatMethod) :
    (parseConverterLinesLoop ctx raw source lines c ld).c.OutputReceiver = c.OutputReceiver := by
  induction lines generalizing c ld with
  | nil => simp [parseConverterLinesLoop]
  | cons v vs ih =>
    have h1 := hnever 1 (le_refl 1) (by simp)
    simp only [parseConverterLinesLoop] at hok ⊢
    simp only [List.take_succ_cons, List.take_zero, parseConverterLinesLoop] at h1
    cases h : (parseConverterLine ctx c ld v).err with
    | some e => simp [h] at hok
    | none =>
      rw [h] at hok h1
      simp only at hok h1 ⊢
      have hstep : (parseConverterLine ctx c ld v).c.OutputReceiver = c.OutputReceiver := by
        rcases line_step ctx c ld v with ⟨_, h2⟩ | ⟨h2, _⟩ | ⟨_, h2, _⟩
        · exact h2
        · exact h2
        · exact absurd h2 h1
      rw [ih _ _ hok, hstep]
      intro k hk1 hk2
      have := hnever (k + 1) (by omega) (by simpa using hk2)
      simpa [parseConverterLinesLoop, h] using this

/-- The converter that initConverter returns has an empty OutputReceiver, an
empty Extend and the format struct or assign-variable. -/
theorem initConverter_defaults (ctx : Context σ) (ld0 ld1 : σ.Loader)
    (rawConverter : RawConverter) (c0 : Converter σ)
    (hinit : initConverter ctx ld0 rawConverter = (ld1, Except.ok c0)) :
    c0.OutputReceiver = "" ∧ c0.Extend = [] ∧
    ((c0.typ ≠ none ∧ c0.OutputFormat = FormatStruct) ∨
      (c0.typ = none ∧ c0.OutputFormat = FormatVariable)) := by
  unfold initConverter at hinit
  split_ifs at hinit with hname
  · cases hg : ctx.GetOneRaw ld0 rawConverter.PackagePath rawConverter.InterfaceName with
    | mk ld2 res =>
      rw [hg] at hinit
      cases res with
      | error e => simp at hinit
      | ok t =>
        simp only [Prod.mk.injEq, Except.ok.injEq] at hinit
        obtain ⟨_, hc⟩ := hinit
        subst hc
        simp [DefaultConfigInterface]
  · simp only [Prod.mk.injEq, Except.ok.injEq] at hinit
    obtain ⟨_, hc⟩ := hinit
    subst hc
    simp [DefaultConfigVariables]

/-- C5 as stated fails: on the interface-style default, `output:format method R`
followed by `output:format struct` both succeed and end with the format struct
and the receiver R. -/
theorem C5_counterexample :
    initConverter sampleCtx [] sampleRawInterface = (["Converter"], Except.ok sampleInterface) ∧
    (parseConverterLines sampleCtx sampleInterface ["Converter"] "global"
      { Location := "", Lines := ["output:format method R", "output:format struct"] }).err
      = none ∧
    (parseConverterLines sampleCtx sampleInterface ["Converter"] "global"
      { Location := "", Lines := ["output:format method R", "output:format struct"] }).c.OutputFormat
      = FormatStruct ∧
    (parseConverterLines sampleCtx sampleInterface ["Converter"] "global"
      { Location := "", Lines := ["output:format method R", "output:format struct"] }).c.OutputReceiver
      = "R" := by
  refine ⟨rfl, ?_, ?_, ?_⟩ <;> decide

/-- C5, amended: on every converter reached from the converter that
initConverter builds by lines that all succeed, the format method implies a
non-empty OutputReceiver, and OutputReceiver is empty when OutputFormat was
not method after any line of the sequence. -/
theorem C5_method_receiver (ctx : Context σ) (ld0 ld1 : σ.Loader)
    (rawConverter : RawConverter) (c0 : Converter σ)
    (hinit : initConverter ctx ld0 rawConverter = (ld1, Except.ok c0))
    (source : String) (raw : RawLines)
    (hok : (parseConverterLines ctx c0 ld1 source raw).err = none) :
    ((parseConverterLines ctx c0 ld1 source raw).c.OutputFormat = FormatMethod →
      (parseConverterLines ctx c0 ld1 source raw).c.OutputReceiver ≠ "") ∧
    ((∀ k, k ≤ raw.Lines.length →
        (parseConverterLines ctx c0 ld1 source
          { Location := raw.Location, Lines := raw.Lines.take k }).c.OutputFormat ≠ FormatMethod) →
      (parseConverterLines ctx c0 ld1 source raw).c.OutputReceiver = "") := by
  obtain ⟨hrecv, _, hfmt⟩ := initConverter_defaults ctx ld0 ld1 rawConverter c0 hinit
  simp only [parseConverterLines] at hok ⊢
  constructor
  · apply loop_method_receiver ctx raw source raw.Lines c0 ld1 _ hok
    intro hm
    rcases hfmt with ⟨_, h⟩ | ⟨_, h⟩ <;> rw [h] at hm <;> exact absurd hm (by decide)
  · intro hnever
    rw [loop_receiver_kept ctx raw source raw.Lines c0 ld1 hok, hrecv]
    intro k _ hk
    rw [(loop_label_irrelevant ctx raw { Location := raw.Location, Lines := raw.Lines.take k }
      source source (raw.Lines.take k) c0 ld1).1]
    exact hnever k hk

/-- C5, amended, at the variable-style default and the line
`output:format method R`. -/
theorem C5_method_receiver_witness :
    initConverter sampleCtx [] sampleRawVariables = ([], Except.ok sampleVariables) ∧
    (parseConverterLines sampleCtx sampleVariables [] "var definition"
      { Location := "", Lines := ["output:raw // x", "output:format method R"] }).err = none ∧
    ((parseConverterLines sampleCtx sampleVariables [] "var definition"
      { Location := "", Lines := ["output:raw // x", "output:format method R"] }).c.OutputFormat
        = FormatMethod →
      (parseConverterLines sampleCtx sampleVariables [] "var definition"
        { Location := "", Lines := ["output:raw // x", "output:format method R"] }).c.OutputReceiver
        ≠ "") :=
  ⟨rfl, by decide,
    (C5_method_receiver sampleCtx [] [] sampleRawVariables sampleVariables rfl "var definition"
      { Location := "", Lines := ["output:raw // x", "output:format method R"] } (by decide)).1⟩

/-- C6 fails on the code: on the variable-style default (no subject type) the
directive `output:format struct` returns no error and leaves the format
struct; so do `function` and `method R`. -/
theorem C6_variables_accepts_other_formats :
    initConverter sampleCtx [] sampleRawVariables = ([], Except.ok sampleVariables) ∧
    sampleVariables.typ = none ∧
    (parseConverterLine sampleCtx sampleVariables [] "output:format struct").err = none ∧
    (parseConverterLine sampleCtx sampleVariables [] "output:format struct").c.OutputFormat
      = FormatStruct ∧
    (parseConverterLine sampleCtx sampleVariables [] "output:format function").err = none ∧
    (parseConverterLine sampleCtx sampleVariables [] "output:format function").c.OutputFormat
      = FormatFunction ∧
    (parseConverterLine sampleCtx sampleVariables [] "output:format method R").err = none ∧
    (parseConverterLine sampleCtx sampleVariables [] "output:format method R").c.OutputFormat
      = FormatMethod := by
  refine ⟨rfl, rfl, ?_, ?_, ?_, ?_, ?_, ?_⟩ <;> decide

/-- C7: on a converter with empty Extend the directive
`output:format assign-variable` returns the error "unsupported format for
goverter:converter" when the subject type is present, and returns no error
and sets OutputFormat to assign-variable when it is absent. -/
theorem C7_assign_variable (ctx : Context σ) (c : Converter σ) (ld : σ.Loader)
    (value rest : String) (hext : c.Extend = [])
    (hcmd : ctx.parseCommand value = ("output:format", rest))
    (hfields : Fields rest = ["assign-variable"])
    (henum : ctx.parseEnum "format" false "assign-variable"
      [FormatFunction, FormatStruct, FormatVariable, FormatMethod] = (FormatVariable, none)) :
    (c.typ ≠ none →
      (parseConverterLine ctx c ld value).err =
        some "unsupported format for goverter:converter") ∧
    (c.typ = none →
      (parseConverterLine ctx c ld value).err = none ∧
      (parseConverterLine ctx c ld value).c.OutputFormat = FormatVariable) := by
  have hc : (ctx.parseCommand value).1 = "output:format" := by rw [hcmd]
  have hr : (ctx.parseCommand value).2 = rest := by rw [hcmd]
  rw [line_format ctx c ld value hc, hr]
  have hlen : ¬ c.Extend.length ≠ 0 := by simp [hext]
  rw [if_neg hlen]
  unfold parseConverterFormatLine
  rw [hfields]
  simp only [henum]
  constructor
  · intro ht
    cases htyp : c.typ with
    | none => exact absurd htyp ht
    | some t => simp [FormatVariable, FormatFunction, FormatStruct]
  · intro ht
    simp [ht, FormatVariable, FormatFunction, FormatStruct]

/-- C7 at the interface-style default. -/
theorem C7_assign_variable_witness :
    sampleInterface.Extend = [] ∧
    sampleCtx.parseCommand "output:format assign-variable" =
      ("output:format", "assign-variable") ∧
    Fields "assign-variable" = ["assign-variable"] ∧
    sampleCtx.parseEnum "format" false "assign-variable"
      [FormatFunction, FormatStruct, FormatVariable, FormatMethod] = (FormatVariable, none) ∧
    sampleInterface.typ ≠ none ∧
    (parseConverterLine sampleCtx sampleInterface [] "output:format assign-variable").err =
      some "unsupported format for goverter:converter" :=
  ⟨rfl, by decide, by decide, by decide, by simp [sampleInterface],
    (C7_assign_variable sampleCtx sampleInterface [] "output:format assign-variable"
      "assign-variable" rfl (by decide) (by decide) (by decide)).1 (by simp [sampleInterface])⟩

/-- A fold none of whose lines is an `output:format` directive leaves
OutputFormat and OutputReceiver as they were. -/
theorem loop_frame_not_format (ctx : Context σ) (raw : RawLines) (source : String)
    (lines : List String) (c : Converter σ) (ld : σ.Loader)
    (hnone : ∀ l ∈ lines, (ctx.parseCommand l).1 ≠ "output:format") :
    (parseConverterLinesLoop ctx raw source lines c ld).c.OutputFormat = c.OutputFormat ∧
    (parseConverterLinesLoop ctx raw source lines c ld).c.OutputReceiver = c.OutputReceiver := by
  induction lines generalizing c ld with
  | nil => simp [parseConverterLinesLoop]
  | cons v vs ih =>
    have hv := line_frame_not_format ctx c ld v (hnone v (by simp))
    simp only [parseConverterLinesLoop]
    cases h : (parseConverterLine ctx c ld v).err with
    | some e => simpa using hv
    | none =>
      have hi := ih (parseConverterLine ctx c ld v).c (parseConverterLine ctx c ld v).ld
        (fun l hl => hnone l (by simp [hl]))
      simp only
      exact ⟨hi.1.trans hv.1, hi.2.trans hv.2⟩

/-- C8 as stated fails: `output:format method X Y` has three fields, is
rejected and leaves the receiver empty; and after `output:format method Y`
the later line `output:format method Z`, which is not an `extend` directive,
changes the receiver to Z. -/
theorem C8_counterexample :
    (parseConverterLine sampleCtx sampleInterface [] "output:format method X Y").err =
      some "invalid format value: expected two values but got 3: [method X Y]" ∧
    (parseConverterLine sampleCtx sampleInterface [] "output:format method X Y").c.OutputReceiver
      = "" ∧
    (parseConverterLine sampleCtx sampleInterface [] "output:format method Y").c.OutputReceiver
      = "Y" ∧
    (sampleCtx.parseCommand "output:format method Z").1 ≠ configExtend ∧
    (parseConverterLine sampleCtx
      (parseConverterLine sampleCtx sampleInterface [] "output:format method Y").c
      (parseConverterLine sampleCtx sampleInterface [] "output:format method Y").ld
      "output:format method Z").c.OutputReceiver = "Z" := by
  refine ⟨?_, ?_, ?_, ?_, ?_⟩ <;> decide

/-- An `output:format` remainder leaves OutputReceiver as it was unless it has
exactly two fields, the first parsed as method: then the receiver is the
second field. -/
theorem formatLine_receiver (ctx : Context σ) (c : Converter σ) (rest : String) :
    (parseConverterFormatLine ctx c rest).1.OutputReceiver = c.OutputReceiver ∨
    ∃ t r, Fields rest = [t, r] ∧
      ctx.parseEnum "format" false t
        [FormatFunction, FormatStruct, FormatVariable, FormatMethod] = (FormatMethod, none) ∧
      (parseConverterFormatLine ctx c rest).1.OutputReceiver = r := by
  unfold parseConverterFormatLine
  cases hf : Fields rest with
  | nil => exact Or.inl rfl
  | cons f0 fs =>
    simp only
    cases he : (ctx.parseEnum "format" false f0
        [FormatFunction, FormatStruct, FormatVariable, FormatMethod]).2 with
    | some e => exact Or.inl rfl
    | none =>
      simp only
      split_ifs with h1 h2 h3 h4 h5 h6 h7 h8
      all_goals first
        | exact Or.inl rfl
        | skip
      right
      have hlen : (f0 :: fs).length = 2 := by
        by_contra hne
        exact h8 hne
      match fs, hlen with
      | [r], _ => exact ⟨f0, r, rfl, Prod.ext h7 he, rfl⟩

/-- A directive line leaves OutputReceiver as it was unless it is an
`output:format` directive on a converter with empty Extend that has exactly
two fields, the first parsed as method: then the receiver is the second
field. -/
theorem line_receiver (ctx : Context σ) (c : Converter σ) (ld : σ.Loader) (value : String) :
    (parseConverterLine ctx c ld value).c.OutputReceiver = c.OutputReceiver ∨
    ((ctx.parseCommand value).1 = "output:format" ∧ c.Extend = [] ∧
      ∃ t r, Fields (ctx.parseCommand value).2 = [t, r] ∧
        ctx.parseEnum "format" false t
          [FormatFunction, FormatStruct, FormatVariable, FormatMethod] = (FormatMethod, none) ∧
        (parseConverterLine ctx c ld value).c.OutputReceiver = r) := by
  by_cases hcmd : (ctx.parseCommand value).1 = "output:format"
  · rw [line_format ctx c ld value hcmd]
    split_ifs with hlen
    · exact Or.inl rfl
    · have hext : c.Extend = [] := by
        simpa [List.length_eq_zero] using hlen
      rcases formatLine_receiver ctx c (ctx.parseCommand value).2 with h | ⟨t, r, h1, h2, h3⟩
      · exact Or.inl h
      · exact Or.inr ⟨hcmd, hext, t, r, h1, h2, h3⟩
  · exact Or.inl (line_frame_not_format ctx c ld value hcmd).2

/-- A fold leaves the receiver y as it is when every line it reaches that
writes the receiver (an `output:format` directive with two fields, the first
parsed as method, reached with Extend empty) writes y. -/
theorem loop_receiver_unless_written (ctx : Context σ) (raw : RawLines) (source : String)
    (later : List String) (c : Converter σ) (ld : σ.Loader) (y : String)
    (hy : c.OutputReceiver = y)
    (hlater : ∀ (pre post : List String) (v t r : String), later = pre ++ v :: post →
      (parseConverterLinesLoop ctx raw source pre c ld).err = none →
      (parseConverterLinesLoop ctx raw source pre c ld).c.Extend = [] →
      (ctx.parseCommand v).1 = "output:format" →
      Fields (ctx.parseCommand v).2 = [t, r] →
      ctx.parseEnum "format" false t
        [FormatFunction, FormatStruct, FormatVariable, FormatMethod] = (FormatMethod, none) →
      r = y) :
    (parseConverterLinesLoop ctx raw source later c ld).c.OutputReceiver = y := by
  induction later generalizing c ld with
  | nil => simpa [parseConverterLinesLoop] using hy
  | cons v vs ih =>
    have hstep : (parseConverterLine ctx c ld v).c.OutputReceiver = y := by
      rcases line_receiver ctx c ld v with h | ⟨hcmd, hext, t, r, h1, h2, h3⟩
      · rw [h, hy]
      · rw [h3]
        exact hlater [] vs v t r rfl rfl hext hcmd h1 h2
    simp only [parseConverterLinesLoop]
    cases h : (parseConverterLine ctx c ld v).err with
    | some e => exact hstep
    | none =>
      simp only
      apply ih _ _ hstep
      intro pre post w t r hsplit hok hext hcmd hf henum
      apply hlater (v :: pre) post w t r (by rw [hsplit]; rfl) _ _ hcmd hf henum
      · simpa [parseConverterLinesLoop, h] using hok
      · simpa [parseConverterLinesLoop, h] using hext

/-- C8, amended: an `output:format` directive with the two fields `method` and
Y on a converter with empty Extend succeeds and sets OutputReceiver to Y, and
a later fold of directive lines, `extend` lines and `output:format` lines
included, leaves it Y, unless it reaches, with Extend still empty, an
`output:format` directive with two fields, the first parsed as method and the
second other than Y. -/
theorem C8_receiver_kept (ctx : Context σ) (c : Converter σ) (ld : σ.Loader)
    (value rest t y : String) (hext : c.Extend = [])
    (hcmd : ctx.parseCommand value = ("output:format", rest))
    (hfields : Fields rest = [t, y])
    (henum : ctx.parseEnum "format" false t
      [FormatFunction, FormatStruct, FormatVariable, FormatMethod] = (FormatMethod, none))
    (raw : RawLines) (source : String) (later : List String)
    (hlater : ∀ (pre post : List String) (v t2 r : String), later = pre ++ v :: post →
      (parseConverterLinesLoop ctx raw source pre
        (parseConverterLine ctx c ld value).c (parseConverterLine ctx c ld value).ld).err
        = none →
      (parseConverterLinesLoop ctx raw source pre
        (parseConverterLine ctx c ld value).c (parseConverterLine ctx c ld value).ld).c.Extend
        = [] →
      (ctx.parseCommand v).1 = "output:format" →
      Fields (ctx.parseCommand v).2 = [t2, r] →
      ctx.parseEnum "format" false t2
        [FormatFunction, FormatStruct, FormatVariable, FormatMethod] = (FormatMethod, none) →
      r = y) :
    (parseConverterLine ctx c ld value).err = none ∧
    (parseConverterLine ctx c ld value).c.OutputFormat = FormatMethod ∧
    (parseConverterLine ctx c ld value).c.OutputReceiver = y ∧
    (parseConverterLinesLoop ctx raw source later
      (parseConverterLine ctx c ld value).c
      (parseConverterLine ctx c ld value).ld).c.OutputReceiver = y := by
  have hc : (ctx.parseCommand value).1 = "output:format" := by rw [hcmd]
  have hr : (ctx.parseCommand value).2 = rest := by rw [hcmd]
  have hlen : ¬ c.Extend.length ≠ 0 := by simp [hext]
  have hfl : parseConverterFormatLine ctx c rest =
      ({ c with OutputFormat := FormatMethod, OutputReceiver := y }, none) := by
    unfold parseConverterFormatLine
    rw [hfields]
    simp [henum, FormatMethod, FormatVariable, FormatFunction, FormatStruct]
  have hline : parseConverterLine ctx c ld value =
      { c := { c with OutputFormat := FormatMethod, OutputReceiver := y }, ld := ld,
        err := none } := by
    rw [line_format ctx c ld value hc, hr, if_neg hlen, hfl]
  have hrecv : (parseConverterLine ctx c ld value).c.OutputReceiver = y := by rw [hline]
  exact ⟨by rw [hline], by rw [hline], hrecv,
    loop_receiver_unless_written ctx raw source later _ _ y hrecv hlater⟩

/-- C8, amended, at `output:format method Y` on the interface-style default,
followed by `output:format struct`, a blank `output:format`, `extend ToID`
and `output:format method Z`: the first two are accepted, the last is
rejected for the extend function, and none of them writes the receiver. -/
theorem C8_receiver_kept_witness :
    sampleInterface.Extend = [] ∧
    sampleCtx.parseCommand "output:format method Y" = ("output:format", "method Y") ∧
    Fields "method Y" = ["method", "Y"] ∧
    sampleCtx.parseEnum "format" false "method"
      [FormatFunction, FormatStruct, FormatVariable, FormatMethod] = (FormatMethod, none) ∧
    (∀ (pre post : List String) (v t2 r : String),
      ["output:format struct", "output:format", "extend ToID", "output:format method Z"] =
        pre ++ v :: post →
      (parseConverterLinesLoop sampleCtx { Location := "", Lines := [] } "global" pre
        (parseConverterLine sampleCtx sampleInterface [] "output:format method Y").c
        (parseConverterLine sampleCtx sampleInterface [] "output:format method Y").ld).err
        = none →
      (parseConverterLinesLoop sampleCtx { Location := "", Lines := [] } "global" pre
        (parseConverterLine sampleCtx sampleInterface [] "output:format method Y").c
        (parseConverterLine sampleCtx sampleInterface [] "output:format method Y").ld).c.Extend
        = [] →
      (sampleCtx.parseCommand v).1 = "output:format" →
      Fields (sampleCtx.parseCommand v).2 = [t2, r] →
      sampleCtx.parseEnum "format" false t2
        [FormatFunction, FormatStruct, FormatVariable, FormatMethod] = (FormatMethod, none) →
      r = "Y") ∧
    (parseConverterLinesLoop sampleCtx { Location := "", Lines := [] } "global"
      ["output:format struct", "output:format", "extend ToID", "output:format method Z"]
      (parseConverterLine sampleCtx sampleInterface [] "output:format method Y").c
      (parseConverterLine sampleCtx sampleInterface [] "output:format method Y").ld).c.OutputReceiver
      = "Y" :=
  have hlater : ∀ (pre post : List String) (v t2 r : String),
      ["output:format struct", "output:format", "extend ToID", "output:format method Z"] =
        pre ++ v :: post →
      (parseConverterLinesLoop sampleCtx { Location := "", Lines := [] } "global" pre
        (parseConverterLine sampleCtx sampleInterface [] "output:format method Y").c
        (parseConverterLine sampleCtx sampleInterface [] "output:format method Y").ld).err
        = none →
      (parseConverterLinesLoop sampleCtx { Location := "", Lines := [] } "global" pre
        (parseConverterLine sampleCtx sampleInterface [] "output:format method Y").c
        (parseConverterLine sampleCtx sampleInterface [] "output:format method Y").ld).c.Extend
        = [] →
      (sampleCtx.parseCommand v).1 = "output:format" →
      Fields (sampleCtx.parseCommand v).2 = [t2, r] →
      sampleCtx.parseEnum "format" false t2
        [FormatFunction, FormatStruct, FormatVariable, FormatMethod] = (FormatMethod, none) →
      r = "Y" := by
    intro pre post v t2 r hsplit hok hext hcmd hf henum
    rcases pre with _ | ⟨a, _ | ⟨b, _ | ⟨c, _ | ⟨d, pre⟩⟩⟩⟩
    · simp only [List.nil_append, List.cons.injEq] at hsplit
      obtain ⟨hv, _⟩ := hsplit
      subst hv
      have e : Fields (sampleCtx.parseCommand "output:format struct").2 = ["struct"] := by
        decide
      rw [e] at hf
      simp at hf
    · simp only [List.cons_append, List.nil_append, List.cons.injEq] at hsplit
      obtain ⟨_, hv, _⟩ := hsplit
      subst hv
      have e : Fields (sampleCtx.parseCommand "output:format").2 = [] := by decide
      rw [e] at hf
      simp at hf
    · simp only [List.cons_append, List.nil_append, List.cons.injEq] at hsplit
      obtain ⟨_, _, hv, _⟩ := hsplit
      subst hv
      exact absurd hcmd (by decide)
    · simp only [List.cons_append, List.nil_append, List.cons.injEq] at hsplit
      obtain ⟨ha, hb, hc, _, _⟩ := hsplit
      subst ha
      subst hb
      subst hc
      exact absurd hext (by decide)
    · simp at hsplit
  ⟨rfl, by decide, by decide, by decide, hlater,
    (C8_receiver_kept sampleCtx sampleInterface [] "output:format method Y" "method Y"
      "method" "Y" rfl (by decide) (by decide) (by decide) { Location := "", Lines := [] }
      "global"
      ["output:format struct", "output:format", "extend ToID", "output:format method Z"]
      hlater).2.2.2⟩

/-! ## Output package -/

/-- Cutting at a colon: the parts before and after the first colon. -/
theorem cutChars_colon (l : List Char) :
    cutChars [':'] l =
      if ':' ∈ l then
        some (l.takeWhile (fun ch => ch ≠ ':'), (l.dropWhile (fun ch => ch ≠ ':')).drop 1)
      else none := by
  induction l with
  | nil => simp [cutChars]
  | cons ch rest ih =>
    by_cases hch : ch = ':'
    · subst hch
      simp [cutChars, List.isPrefixOf]
    · have hne : ¬ (':' = ch) := fun h => hch h.symm
      simp only [cutChars, List.isPrefixOf, ih]
      by_cases hmem : ':' ∈ rest
      · simp [hmem, hch, hne]
      · simp [hmem, hch, hne]

/-- Without a colon everything comes before the first colon. -/
theorem takeWhile_no_colon (l : List Char) (hmem : ':' ∉ l) :
    l.takeWhile (fun ch => ch ≠ ':') = l := by
  apply List.takeWhile_eq_self_iff.mpr
  intro ch hch
  simp only [decide_eq_true_eq]
  intro heq
  exact hmem (heq ▸ hch)

/-- Without a colon nothing comes after the first colon. -/
theorem dropWhile_no_colon (l : List Char) (hmem : ':' ∉ l) :
    l.dropWhile (fun ch => ch ≠ ':') = [] := by
  apply List.dropWhile_eq_nil_iff.mpr
  intro ch hch
  simp only [decide_eq_true_eq]
  intro heq
  exact hmem (heq ▸ hch)

/-- Go: strings.SplitN(p, ":", 2) is the part before the first colon and the
part after it, or p alone when it has no colon. -/
theorem SplitN_colon (p : String) :
    SplitN p ":" 2 =
      if ':' ∈ p.data then
        [String.mk (p.data.takeWhile (fun ch => ch ≠ ':')),
          String.mk ((p.data.dropWhile (fun ch => ch ≠ ':')).drop 1)]
      else [p] := by
  have hsep : (":" : String).data = [':'] := rfl
  simp only [SplitN, hsep, splitNChars, cutChars_colon]
  by_cases hmem : ':' ∈ p.data
  · simp [hmem, splitNChars]
  · simp [hmem]

/-- The `output:package` case of parseConverterLine. -/
theorem line_package (ctx : Context σ) (c : Converter σ) (ld : σ.Loader) (value : String)
    (h : (ctx.parseCommand value).1 = "output:package") :
    parseConverterLine ctx c ld value =
      { c := (outputPackage ctx c (ctx.parseCommand value).2).1, ld := ld,
        err := (outputPackage ctx c (ctx.parseCommand value).2).2 } := by
  unfold parseConverterLine
  simp [h]

/-- What the `output:package` case stores for a parsed value p. -/
theorem outputPackage_parsed (ctx : Context σ) (c : Converter σ) (rest p : String)
    (e : Option String) (hp : ctx.parseString rest = (p, e)) :
    outputPackage ctx c rest =
      ({ c with
          OutputPackagePath := String.mk (p.data.takeWhile (fun ch => ch ≠ ':')),
          OutputPackageName := String.mk ((p.data.dropWhile (fun ch => ch ≠ ':')).drop 1) },
        e) := by
  unfold outputPackage
  simp only [hp, SplitN_colon]
  by_cases hmem : ':' ∈ p.data
  · simp [hmem]
  · rw [if_neg hmem, takeWhile_no_colon p.data hmem, dropWhile_no_colon p.data hmem]
    rfl

/-- C9: after an `output:package` directive whose value parses to p,
OutputPackagePath is the part of p before its first colon (all of p when it
has none) and OutputPackageName is the part after that colon (empty when p has
none), whatever they were before; so the value "a:b" followed by the value "c"
ends with the path "c" and an empty name. -/
theorem C9_output_package (ctx : Context σ) (c : Converter σ) (ld : σ.Loader)
    (value rest p : String)
    (hcmd : ctx.parseCommand value = ("output:package", rest))
    (hparse : ctx.parseString rest = (p, none)) :
    (parseConverterLine ctx c ld value).err = none ∧
    (parseConverterLine ctx c ld value).c.OutputPackagePath =
      String.mk (p.data.takeWhile (fun ch => ch ≠ ':')) ∧
    (parseConverterLine ctx c ld value).c.OutputPackageName =
      String.mk ((p.data.dropWhile (fun ch => ch ≠ ':')).drop 1) ∧
    (':' ∉ p.data →
      (parseConverterLine ctx c ld value).c.OutputPackagePath = p ∧
      (parseConverterLine ctx c ld value).c.OutputPackageName = "") ∧
    (∀ (value2 rest2 : String),
      p = "a:b" →
      ctx.parseCommand value2 = ("output:package", rest2) →
      ctx.parseString rest2 = ("c", none) →
      (parseConverterLine ctx c ld value).c.OutputPackagePath = "a" ∧
      (parseConverterLine ctx c ld value).c.OutputPackageName = "b" ∧
      (parseConverterLine ctx (parseConverterLine ctx c ld value).c
        (parseConverterLine ctx c ld value).ld value2).err = none ∧
      (parseConverterLine ctx (parseConverterLine ctx c ld value).c
        (parseConverterLine ctx c ld value).ld value2).c.OutputPackagePath = "c" ∧
      (parseConverterLine ctx (parseConverterLine ctx c ld value).c
        (parseConverterLine ctx c ld value).ld value2).c.OutputPackageName = "") := by
  have hc : (ctx.parseCommand value).1 = "output:package" := by rw [hcmd]
  have hr : (ctx.parseCommand value).2 = rest := by rw [hcmd]
  have hline := line_package ctx c ld value hc
  rw [hr, outputPackage_parsed ctx c rest p none hparse] at hline
  refine ⟨by rw [hline], by rw [hline], by rw [hline], ?_, ?_⟩
  · intro hmem
    rw [hline, takeWhile_no_colon p.data hmem, dropWhile_no_colon p.data hmem]
    exact ⟨rfl, rfl⟩
  · intro value2 rest2 hab hcmd2 hparse2
    have hc2 : (ctx.parseCommand value2).1 = "output:package" := by rw [hcmd2]
    have hr2 : (ctx.parseCommand value2).2 = rest2 := by rw [hcmd2]
    have hline2 := line_package ctx (parseConverterLine ctx c ld value).c
      (parseConverterLine ctx c ld value).ld value2 hc2
    rw [hr2, outputPackage_parsed ctx _ rest2 "c" none hparse2] at hline2
    rw [hline2, hline, hab]
    exact ⟨rfl, rfl, rfl, rfl, rfl⟩

/-- C9 at the values "a:b" and then "c" on the interface-style default. -/
theorem C9_output_package_witness :
    sampleCtx.parseCommand "output:package a:b" = ("output:package", "a:b") ∧
    sampleCtx.parseString "a:b" = ("a:b", none) ∧
    sampleCtx.parseCommand "output:package c" = ("output:package", "c") ∧
    sampleCtx.parseString "c" = ("c", none) ∧
    (parseConverterLine sampleCtx
      (parseConverterLine sampleCtx sampleInterface [] "output:package a:b").c
      (parseConverterLine sampleCtx sampleInterface [] "output:package a:b").ld
      "output:package c").c.OutputPackagePath = "c" ∧
    (parseConverterLine sampleCtx
      (parseConverterLine sampleCtx sampleInterface [] "output:package a:b").c
      (parseConverterLine sampleCtx sampleInterface [] "output:package a:b").ld
      "output:package c").c.OutputPackageName = "" :=
  ⟨by decide, by decide, by decide, by decide,
    ((C9_output_package sampleCtx sampleInterface [] "output:package a:b" "a:b" "a:b"
      (by decide) (by decide)).2.2.2.2 "output:package c" "c" rfl (by decide)
      (by decide)).2.2.2.1,
    ((C9_output_package sampleCtx sampleInterface [] "output:package a:b" "a:b" "a:b"
      (by decide) (by decide)).2.2.2.2 "output:package c" "c" rfl (by decide)
      (by decide)).2.2.2.2⟩

/-! ## Directives that require the struct format -/

/-- The `name` case of parseConverterLine. -/
theorem line_name (ctx : Context σ) (c : Converter σ) (ld : σ.Loader) (value : String)
    (h : (ctx.parseCommand value).1 = "name") :
    parseConverterLine ctx c ld value =
      match c.requireStruct with
      | some e => { c := c, ld := ld, err := some e }
      | none =>
        { c := { c with Name := (ctx.parseString (ctx.parseCommand value).2).1 }, ld := ld,
          err := (ctx.parseString (ctx.parseCommand value).2).2 } := by
  unfold parseConverterLine
  simp [h]

/-- The `struct:comment` case of parseConverterLine. -/
theorem line_comment (ctx : Context σ) (c : Converter σ) (ld : σ.Loader) (value : String)
    (h : (ctx.parseCommand value).1 = "struct:comment") :
    parseConverterLine ctx c ld value =
      match c.requireStruct with
      | some e => { c := c, ld := ld, err := some e }
      | none =>
        { c := { c with Comments := c.Comments ++ [(ctx.parseCommand value).2] }, ld := ld,
          err := none } := by
  unfold parseConverterLine
  simp [h]

/-- C10: when OutputFormat is not struct, `name` and `struct:comment` return
the requireStruct error and leave the converter, Name and Comments included,
as it was; when OutputFormat is struct, `struct:comment` succeeds and appends
its remainder to Comments, and `name` with a remainder that parses to s
succeeds and sets Name to s. -/
theorem C10_require_struct (ctx : Context σ) (c : Converter σ) (ld : σ.Loader)
    (value : String) :
    (c.OutputFormat ≠ FormatStruct →
      ((ctx.parseCommand value).1 = "name" ∨ (ctx.parseCommand value).1 = "struct:comment") →
      (parseConverterLine ctx c ld value).err =
        some "not allowed when using goverter:variables" ∧
      (parseConverterLine ctx c ld value).c.Name = c.Name ∧
      (parseConverterLine ctx c ld value).c.Comments = c.Comments ∧
      (parseConverterLine ctx c ld value).c = c) ∧
    (c.OutputFormat = FormatStruct → (ctx.parseCommand value).1 = "struct:comment" →
      (parseConverterLine ctx c ld value).err = none ∧
      (parseConverterLine ctx c ld value).c.Comments =
        c.Comments ++ [(ctx.parseCommand value).2]) ∧
    (c.OutputFormat = FormatStruct → (ctx.parseCommand value).1 = "name" →
      ∀ s, ctx.parseString (ctx.parseCommand value).2 = (s, none) →
        (parseConverterLine ctx c ld value).err = none ∧
        (parseConverterLine ctx c ld value).c.Name = s) := by
  refine ⟨?_, ?_, ?_⟩
  · intro hfmt hcmd
    have hrs : c.requireStruct = some "not allowed when using goverter:variables" := by
      simp [Converter.requireStruct, hfmt]
    rcases hcmd with hcmd | hcmd
    · rw [line_name ctx c ld value hcmd, hrs]
      exact ⟨rfl, rfl, rfl, rfl⟩
    · rw [line_comment ctx c ld value hcmd, hrs]
      exact ⟨rfl, rfl, rfl, rfl⟩
  · intro hfmt hcmd
    have hrs : c.requireStruct = none := by
      simp [Converter.requireStruct, hfmt]
    rw [line_comment ctx c ld value hcmd, hrs]
    exact ⟨rfl, rfl⟩
  · intro hfmt hcmd s hs
    have hrs : c.requireStruct = none := by
      simp [Converter.requireStruct, hfmt]
    rw [line_name ctx c ld value hcmd, hrs]
    simp only
    rw [hs]
    exact ⟨rfl, rfl⟩

/-- C10 at `name Foo`: rejected on the variable-style default, accepted on the
interface-style default (format struct), where it sets Name to Foo. -/
theorem C10_require_struct_witness :
    (sampleCtx.parseCommand "name Foo").1 = "name" ∧
    sampleCtx.parseString (sampleCtx.parseCommand "name Foo").2 = ("Foo", none) ∧
    sampleVariables.OutputFormat ≠ FormatStruct ∧
    (parseConverterLine sampleCtx sampleVariables [] "name Foo").err =
      some "not allowed when using goverter:variables" ∧
    sampleInterface.OutputFormat = FormatStruct ∧
    (parseConverterLine sampleCtx sampleInterface [] "name Foo").err = none ∧
    (parseConverterLine sampleCtx sampleInterface [] "name Foo").c.Name = "Foo" ∧
    (sampleCtx.parseCommand "struct:comment // doc").1 = "struct:comment" ∧
    (parseConverterLine sampleCtx sampleInterface [] "struct:comment // doc").c.Comments =
      sampleInterface.Comments ++ [(sampleCtx.parseCommand "struct:comment // doc").2] :=
  ⟨by decide, by decide, by decide,
    ((C10_require_struct sampleCtx sampleVariables [] "name Foo").1 (by decide)
      (Or.inl (by decide))).1,
    by decide,
    ((C10_require_struct sampleCtx sampleInterface [] "name Foo").2.2 (by decide) (by decide)
      "Foo" (by decide)).1,
    ((C10_require_struct sampleCtx sampleInterface [] "name Foo").2.2 (by decide) (by decide)
      "Foo" (by decide)).2,
    by decide,
    ((C10_require_struct sampleCtx sampleInterface [] "struct:comment // doc").2.1 (by decide)
      (by decide)).2⟩

/-! ## Field counts of `output:format` -/

/-- The `output:format` case on a converter with empty Extend. -/
theorem line_format_empty (ctx : Context σ) (c : Converter σ) (ld : σ.Loader)
    (value rest : String) (hext : c.Extend = [])
    (hcmd : ctx.parseCommand value = ("output:format", rest)) :
    parseConverterLine ctx c ld value =
      { c := (parseConverterFormatLine ctx c rest).1, ld := ld,
        err := (parseConverterFormatLine ctx c rest).2 } := by
  have hc : (ctx.parseCommand value).1 = "output:format" := by rw [hcmd]
  have hr : (ctx.parseCommand value).2 = rest := by rw [hcmd]
  have hlen : ¬ c.Extend.length ≠ 0 := by simp [hext]
  rw [line_format ctx c ld value hc, hr, if_neg hlen]

/-- The field-count message contains the expected and the actual count. -/
theorem fieldCountError_contains (want : String) (fields : List String) :
    fieldCountError want fields =
      "invalid format value: " ++
        ("expected " ++ want ++ " but got " ++ toString fields.length) ++
        (": " ++ fmtStrings fields) := by
  unfold fieldCountError
  have h : "invalid format value: expected " = "invalid format value: " ++ "expected " := by
    decide
  rw [h]
  simp only [String.append_assoc]

/-- C11: on a converter with empty Extend, an `output:format` remainder whose
first field is `struct` or `function` succeeds exactly when it has one field;
with n fields, n not 1, the error message contains "expected one value but
got n", with two fields "expected one value but got 2". -/
theorem C11_struct_function_one_field (ctx : Context σ) (c : Converter σ) (ld : σ.Loader)
    (value rest f0 : String) (fs : List String) (hext : c.Extend = [])
    (hcmd : ctx.parseCommand value = ("output:format", rest))
    (hfields : Fields rest = f0 :: fs)
    (hf0 : f0 = FormatStruct ∨ f0 = FormatFunction)
    (henum : ctx.parseEnum "format" false f0
      [FormatFunction, FormatStruct, FormatVariable, FormatMethod] = (f0, none)) :
    ((parseConverterLine ctx c ld value).err = none ↔ (Fields rest).length = 1) ∧
    ((Fields rest).length ≠ 1 →
      ∃ pre post, (parseConverterLine ctx c ld value).err =
        some (pre ++ ("expected one value but got " ++ toString (Fields rest).length) ++ post)) ∧
    ((Fields rest).length = 2 →
      ∃ pre post, (parseConverterLine ctx c ld value).err =
        some (pre ++ "expected one value but got 2" ++ post)) := by
  have hfl : (parseConverterFormatLine ctx c rest).2 =
      if (Fields rest).length ≠ 1 then some (fieldCountError "one value" (Fields rest))
      else none := by
    unfold parseConverterFormatLine
    rw [hfields]
    simp only [henum]
    rcases hf0 with h | h <;> subst h <;>
      simp [FormatStruct, FormatFunction, apply_ite Prod.snd]
  rw [line_format_empty ctx c ld value rest hext hcmd]
  simp only [hfl]
  refine ⟨?_, ?_, ?_⟩
  · by_cases hlen : (Fields rest).length = 1
    · simp [hlen]
    · simp [hlen]
  · intro hlen
    rw [if_pos hlen, fieldCountError_contains]
    exact ⟨_, _, rfl⟩
  · intro hlen
    have hne : (Fields rest).length ≠ 1 := by omega
    rw [if_pos hne, fieldCountError_contains, hlen]
    exact ⟨"invalid format value: ", ": " ++ fmtStrings (Fields rest), rfl⟩

/-- C11 at `output:format struct extra` on the interface-style default. -/
theorem C11_struct_function_one_field_witness :
    sampleInterface.Extend = [] ∧
    sampleCtx.parseCommand "output:format struct extra" = ("output:format", "struct extra") ∧
    Fields "struct extra" = ["struct", "extra"] ∧
    sampleCtx.parseEnum "format" false "struct"
      [FormatFunction, FormatStruct, FormatVariable, FormatMethod] = ("struct", none) ∧
    (Fields "struct extra").length = 2 ∧
    (∃ pre post,
      (parseConverterLine sampleCtx sampleInterface [] "output:format struct extra").err =
        some (pre ++ "expected one value but got 2" ++ post)) :=
  ⟨rfl, by decide, by decide, by decide, by decide,
    (C11_struct_function_one_field sampleCtx sampleInterface [] "output:format struct extra"
      "struct extra" "struct" ["extra"] rfl (by decide) (by decide) (Or.inl rfl)
      (by decide)).2.2 (by decide)⟩

/-- C12: on a converter with empty Extend, an `output:format` remainder whose
first field is `method` succeeds exactly when it has two fields, and then
OutputFormat is method and OutputReceiver is the second field. -/
theorem C12_method_two_fields (ctx : Context σ) (c : Converter σ) (ld : σ.Loader)
    (value rest f0 : String) (fs : List String) (hext : c.Extend = [])
    (hcmd : ctx.parseCommand value = ("output:format", rest))
    (hfields : Fields rest = f0 :: fs)
    (hf0 : f0 = FormatMethod)
    (henum : ctx.parseEnum "format" false f0
      [FormatFunction, FormatStruct, FormatVariable, FormatMethod] = (f0, none)) :
    ((parseConverterLine ctx c ld value).err = none ↔ (Fields rest).length = 2) ∧
    ((parseConverterLine ctx c ld value).err = none →
      (parseConverterLine ctx c ld value).c.OutputFormat = FormatMethod ∧
      ∀ r, Fields rest = [f0, r] →
        (parseConverterLine ctx c ld value).c.OutputReceiver = r) ∧
    ((parseConverterLine ctx c ld value).err = none → ∃ r, Fields rest = [f0, r]) := by
  subst hf0
  have hfl : parseConverterFormatLine ctx c rest =
      if (Fields rest).length ≠ 2 then
        ({ c with OutputFormat := FormatMethod },
          some (fieldCountError "two values" (Fields rest)))
      else
        ({ c with OutputFormat := FormatMethod, OutputReceiver := (Fields rest).getD 1 "" },
          none) := by
    unfold parseConverterFormatLine
    rw [hfields]
    simp [henum, FormatStruct, FormatFunction, FormatVariable, FormatMethod]
  rw [line_format_empty ctx c ld value rest hext hcmd, hfl]
  by_cases hlen : (Fields rest).length = 2
  · have hne : ¬ (Fields rest).length ≠ 2 := fun h => h hlen
    rw [if_neg hne]
    refine ⟨by simp [hlen], fun _ => ⟨rfl, ?_⟩, fun _ => ?_⟩
    · intro r hr
      simp [hr]
    · rw [hfields] at hlen ⊢
      match fs, hlen with
      | [r], _ => exact ⟨r, rfl⟩
  · rw [if_pos hlen]
    simp [hlen]

/-- C12 at `output:format method Y` on the interface-style default. -/
theorem C12_method_two_fields_witness :
    sampleInterface.Extend = [] ∧
    sampleCtx.parseCommand "output:format method Y" = ("output:format", "method Y") ∧
    Fields "method Y" = ["method", "Y"] ∧
    sampleCtx.parseEnum "format" false "method"
      [FormatFunction, FormatStruct, FormatVariable, FormatMethod] = ("method", none) ∧
    (parseConverterLine sampleCtx sampleInterface [] "output:format method Y").err = none ∧
    (parseConverterLine sampleCtx sampleInterface [] "output:format method Y").c.OutputReceiver
      = "Y" :=
  ⟨rfl, by decide, by decide, by decide, by decide,
    ((C12_method_two_fields sampleCtx sampleInterface [] "output:format method Y" "method Y"
      "method" ["Y"] rfl (by decide) (by decide) rfl (by decide)).2.1 (by decide)).2 "Y"
      (by decide)⟩

/-! ## Default output file -/

/-- Dropping up to the first occurrence of a character that occurs leaves a
list that starts with it. -/
theorem dropWhile_ne_of_mem (a : Char) (t : List Char) (h : a ∈ t) :
    ∃ r, t.dropWhile (fun ch => ch ≠ a) = a :: r := by
  induction t with
  | nil => simp at h
  | cons b bs ih =>
    by_cases hb : b = a
    · subst hb
      exact ⟨bs, by simp [List.dropWhile]⟩
    · have hmem : a ∈ bs := by
        rcases List.mem_cons.mp h with h1 | h1
        · exact absurd h1.symm hb
        · exact h1
      obtain ⟨r, hr⟩ := ih hmem
      refine ⟨r, ?_⟩
      rw [List.dropWhile_cons_of_pos (by simpa using hb)]
      exact hr

/-- The characters kept by takeWhile all differ from the stop character. -/
theorem not_mem_takeWhile_ne (a : Char) (t : List Char) :
    a ∉ t.takeWhile (fun ch => ch ≠ a) := by
  intro h
  have := List.mem_takeWhile_imp h
  simp at this

/-- Go: filepath.Ext returns a suffix of the path. -/
theorem filepathExt_suffix (f : String) : (filepathExt f).data <:+ f.data := by
  unfold filepathExt
  simp only
  split_ifs with hdot
  · have hmem : '.' ∈ f.data.reverse.takeWhile (fun ch => ch ≠ '/') := by
      simpa using hdot
    obtain ⟨r, hr⟩ := dropWhile_ne_of_mem '.' _ hmem
    have h1 := List.takeWhile_append_dropWhile (fun ch => decide (ch ≠ '.'))
      (f.data.reverse.takeWhile (fun ch => ch ≠ '/'))
    have h2 := List.takeWhile_append_dropWhile (fun ch => decide (ch ≠ '/')) f.data.reverse
    rw [hr] at h1
    have h3 : f.data = (f.data.reverse.dropWhile (fun ch => ch ≠ '/')).reverse ++ r.reverse ++
        ('.' :: ((f.data.reverse.takeWhile (fun ch => ch ≠ '/')).takeWhile
          (fun ch => ch ≠ '.')).reverse) := by
      have h4 := congrArg List.reverse h2
      rw [← h1] at h4
      simp only [List.reverse_append, List.reverse_cons, List.reverse_reverse,
        List.append_assoc] at h4
      simpa [List.append_assoc] using h4.symm
    exact ⟨_, h3.symm⟩
  · exact List.nil_suffix

/-- Go: strings.TrimSuffix removes a suffix that is there. -/
theorem TrimSuffix_append (s suffix : String) (h : suffix.data <:+ s.data) :
    TrimSuffix s suffix ++ suffix = s := by
  obtain ⟨t, ht⟩ := h
  have hsuf : suffix.data.isSuffixOf s.data = true := by
    rw [List.isSuffixOf_iff_suffix]
    exact ⟨t, ht⟩
  unfold TrimSuffix
  rw [if_pos hsuf]
  apply String.ext
  simp only [String.data_append]
  rw [← ht]
  simp

/-- Go: filepath.Ext is empty when the last path element has no dot, and
otherwise starts at the last dot of the path. -/
theorem filepathExt_shape (f : String) :
    (filepathExt f = "" ∧ '.' ∉ f.data.reverse.takeWhile (fun ch => ch ≠ '/')) ∨
    ∃ e, (filepathExt f).data = '.' :: e ∧ '.' ∉ e := by
  unfold filepathExt
  simp only
  split_ifs with hdot
  · right
    refine ⟨_, rfl, ?_⟩
    rw [List.mem_reverse]
    exact not_mem_takeWhile_ne '.' _
  · left
    refine ⟨rfl, ?_⟩
    simpa using hdot

/-- Go: filepath.Base is `/`, or has no separator in it. -/
theorem filepathBase_no_separator (name : String) :
    filepathBase name = "/" ∨ '/' ∉ (filepathBase name).data := by
  unfold filepathBase
  simp only
  split_ifs with h1 h2
  · right; decide
  · left; rfl
  · right
    show '/' ∉ ((List.takeWhile _ _).reverse)
    rw [List.mem_reverse]
    exact not_mem_takeWhile_ne '/' _

/-- Without a separator nothing is left after dropping up to the first one. -/
theorem dropWhile_no_slash (l : List Char) (hmem : '/' ∉ l) :
    l.dropWhile (fun ch => ch ≠ '/') = [] := by
  apply List.dropWhile_eq_nil_iff.mpr
  intro ch hch
  simp only [decide_eq_true_eq]
  intro heq
  exact hmem (heq ▸ hch)

/-- Go: filepath.Base of a non-empty path is its last element: the path is a
directory part that is empty or ends with a separator, the base, and trailing
separators. -/
theorem filepathBase_decomp (name : String) (hne : name ≠ "")
    (hb : filepathBase name ≠ "/") :
    ∃ dir trail, name.data = dir ++ (filepathBase name).data ++ trail ∧
      (∀ ch ∈ trail, ch = '/') ∧ (dir = [] ∨ ∃ d, dir = d ++ ['/']) := by
  unfold filepathBase at hb ⊢
  simp only [hne, if_false, List.reverse_reverse] at hb ⊢
  split_ifs at hb ⊢ with hlast
  · exact absurd rfl hb
  · refine ⟨((name.data.reverse.dropWhile (fun ch => ch = '/')).dropWhile
        (fun ch => ch ≠ '/')).reverse,
      (name.data.reverse.takeWhile (fun ch => ch = '/')).reverse, ?_, ?_, ?_⟩
    · have h1 := List.takeWhile_append_dropWhile (fun ch => decide (ch = '/')) name.data.reverse
      have h2 := List.takeWhile_append_dropWhile (fun ch => decide (ch ≠ '/'))
        (name.data.reverse.dropWhile (fun ch => ch = '/'))
      have h3 := congrArg List.reverse h1
      rw [← h2] at h3
      simp only [List.reverse_append, List.reverse_reverse] at h3
      simpa [List.append_assoc] using h3.symm
    · intro ch hch
      rw [List.mem_reverse] at hch
      simpa using List.mem_takeWhile_imp hch
    · by_cases hmem : '/' ∈ name.data.reverse.dropWhile (fun ch => ch = '/')
      · obtain ⟨r, hr⟩ := dropWhile_ne_of_mem '/' _ hmem
        right
        exact ⟨r.reverse, by rw [hr]; simp⟩
      · left
        rw [dropWhile_no_slash _ hmem]
        rfl

/-- A directive line whose command is not `output:file` leaves OutputFile. -/
theorem line_frame_not_file (ctx : Context σ) (c : Converter σ) (ld : σ.Loader)
    (value : String) (h : (ctx.parseCommand value).1 ≠ "output:file") :
    (parseConverterLine ctx c ld value).c.OutputFile = c.OutputFile := by
  by_cases hfmt : (ctx.parseCommand value).1 = "output:format"
  · obtain ⟨f, r, hf⟩ := formatLine_c ctx c (ctx.parseCommand value).2
    rw [line_format ctx c ld value hfmt]
    split_ifs
    · rfl
    · simp [hf]
  · obtain ⟨more, hm⟩ := extendLoop_c ctx (Fields (ctx.parseCommand value).2) c ld
    obtain ⟨p, n, hp⟩ := outputPackage_c ctx c (ctx.parseCommand value).2
    generalize hr : parseConverterLine ctx c ld value = res
    unfold parseConverterLine at hr
    simp only at hr
    split_ifs at hr
    all_goals (try (cases hrs : c.requireStruct <;> rw [hrs] at hr <;> simp only at hr))
    all_goals (subst hr; simp_all)

/-- A fold none of whose lines is an `output:file` directive leaves
OutputFile. -/
theorem loop_frame_not_file (ctx : Context σ) (raw : RawLines) (source : String)
    (lines : List String) (c : Converter σ) (ld : σ.Loader)
    (hnone : ∀ l ∈ lines, (ctx.parseCommand l).1 ≠ "output:file") :
    (parseConverterLinesLoop ctx raw source lines c ld).c.OutputFile = c.OutputFile := by
  induction lines generalizing c ld with
  | nil => simp [parseConverterLinesLoop]
  | cons v vs ih =>
    have hv := line_frame_not_file ctx c ld v (hnone v (by simp))
    simp only [parseConverterLinesLoop]
    cases h : (parseConverterLine ctx c ld v).err with
    | some e => simpa using hv
    | none =>
      have hi := ih (parseConverterLine ctx c ld v).c (parseConverterLine ctx c ld v).ld
        (fun l hl => hnone l (by simp [hl]))
      simp only
      exact hi.trans hv

/-- The converter that initConverter builds for a variable-style declaration. -/
theorem initConverter_variables (ctx : Context σ) (ld : σ.Loader)
    (rawConverter : RawConverter) (hname : rawConverter.InterfaceName = "") :
    initConverter ctx ld rawConverter =
      (ld, Except.ok
        { toConverterConfig :=
            { (DefaultConfigVariables : ConverterConfig σ) with
              OutputFile := defaultOutputFile rawConverter.FileName,
              OutputPackageName := rawConverter.PackageName,
              OutputPackagePath := rawConverter.PackagePath },
          Package := rawConverter.PackagePath,
          FileName := rawConverter.FileName,
          typ := none,
          Methods := [],
          Location := rawConverter.Converter.Location }) := by
  unfold initConverter
  rw [if_neg (by simp [hname])]

/-- C13: defaultOutputFile returns the base name of the file with `.gen`
inserted before its final extension: the base is a stem followed by the
extension, the result is the stem, `.gen` and the extension, and the extension
is empty (the base has no dot) or starts at the last dot of the base.  So
`orders.go` gives `orders.gen.go`, `foo.go` gives `foo.gen.go`, and a
variable-style converter folded over lines without an `output:file`
directive has this value as OutputFile. -/
theorem C13_defaultOutputFile (name : String) :
    (∃ stem, filepathBase name = stem ++ filepathExt (filepathBase name) ∧
      defaultOutputFile name = stem ++ ".gen" ++ filepathExt (filepathBase name)) ∧
    ((filepathExt (filepathBase name) = "" ∧ '.' ∉ (filepathBase name).data) ∨
      ∃ e, (filepathExt (filepathBase name)).data = '.' :: e ∧ '.' ∉ e) ∧
    (filepathBase name = "/" ∨ '/' ∉ (filepathBase name).data) ∧
    (name ≠ "" → filepathBase name ≠ "/" →
      ∃ dir trail, name.data = dir ++ (filepathBase name).data ++ trail ∧
        (∀ ch ∈ trail, ch = '/') ∧ (dir = [] ∨ ∃ d, dir = d ++ ['/'])) ∧
    defaultOutputFile "orders.go" = "orders.gen.go" ∧
    defaultOutputFile "foo.go" = "foo.gen.go" ∧
    defaultOutputFile "internal/shop/orders.go" = "orders.gen.go" ∧
    (∀ (ctx : Context σ) (ld : σ.Loader) (rawConverter : RawConverter) (source : String)
        (raw : RawLines),
      rawConverter.InterfaceName = "" → rawConverter.FileName = name →
      (∀ l ∈ raw.Lines, (ctx.parseCommand l).1 ≠ "output:file") →
      ∃ c0, initConverter ctx ld rawConverter = (ld, Except.ok c0) ∧
        c0.OutputFile = defaultOutputFile name ∧
        (parseConverterLines ctx c0 ld source raw).c.OutputFile = defaultOutputFile name) := by
  refine ⟨?_, ?_, filepathBase_no_separator name, filepathBase_decomp name, by decide,
    by decide, by decide, ?_⟩
  · refine ⟨TrimSuffix (filepathBase name) (filepathExt (filepathBase name)), ?_, rfl⟩
    exact (TrimSuffix_append _ _ (filepathExt_suffix _)).symm
  · rcases filepathExt_shape (filepathBase name) with ⟨h1, h2⟩ | h
    · left
      refine ⟨h1, ?_⟩
      rcases filepathBase_no_separator name with hb | hb
      · rw [hb]; decide
      · intro hmem
        apply h2
        rw [List.takeWhile_eq_self_iff.mpr]
        · exact List.mem_reverse.mpr hmem
        · intro ch hch
          simp only [decide_eq_true_eq]
          intro heq
          exact hb (heq ▸ List.mem_reverse.mp hch)
    · right; exact h
  · intro ctx ld rawConverter source raw hname hfile hlines
    refine ⟨_, initConverter_variables ctx ld rawConverter hname, ?_, ?_⟩
    · rw [← hfile]
    · unfold parseConverterLines
      rw [loop_frame_not_file ctx raw source raw.Lines _ ld hlines, ← hfile]

/-- C13 for `orders.go` and the variable-style declaration in it, folded over
an `output:raw` line. -/
theorem C13_defaultOutputFile_witness :
    sampleRawVariables.InterfaceName = "" ∧ sampleRawVariables.FileName = "orders.go" ∧
    (∀ l ∈ ["output:raw // x"], (sampleCtx.parseCommand l).1 ≠ "output:file") ∧
    (∃ c0, initConverter sampleCtx [] sampleRawVariables = ([], Except.ok c0) ∧
      c0.OutputFile = defaultOutputFile "orders.go" ∧
      (parseConverterLines sampleCtx c0 [] "var definition"
        { Location := "", Lines := ["output:raw // x"] }).c.OutputFile =
        defaultOutputFile "orders.go") ∧
    defaultOutputFile "orders.go" = "orders.gen.go" :=
  ⟨rfl, rfl, by decide,
    (C13_defaultOutputFile "orders.go").2.2.2.2.2.2.2 sampleCtx [] sampleRawVariables
      "var definition" { Location := "", Lines := ["output:raw // x"] } rfl rfl (by decide),
    (@C13_defaultOutputFile sampleSig "orders.go").2.2.2.2.1⟩

/-! ## Defaults by declaration kind -/

/-- The converter that initConverter builds for an interface-style declaration
that the loader resolves. -/
theorem initConverter_interface (ctx : Context σ) (ld ld1 : σ.Loader)
    (rawConverter : RawConverter) (t : σ.Typ) (hname : rawConverter.InterfaceName ≠ "")
    (hget : ctx.GetOneRaw ld rawConverter.PackagePath rawConverter.InterfaceName =
      (ld1, Except.ok t)) :
    initConverter ctx ld rawConverter =
      (ld1, Except.ok
        { toConverterConfig :=
            { (DefaultConfigInterface : ConverterConfig σ) with
              Name := rawConverter.InterfaceName ++ "Impl" },
          Package := rawConverter.PackagePath,
          FileName := rawConverter.FileName,
          typ := some t,
          Methods := [],
          Location := rawConverter.Converter.Location }) := by
  unfold initConverter
  rw [if_pos hname, hget]

/-- C14: for a non-empty InterfaceName that the loader resolves, initConverter
returns a converter with the resolved subject type, the name InterfaceName
followed by Impl, the format struct and the output file and package of
DefaultConfigInterface; when the loader fails it returns the error and no
converter; for an empty InterfaceName it returns a converter without subject
type, with the format assign-variable and the package path and name of the
declaring file.  Extend, OutputRaw and Comments start empty. -/
theorem C14_initConverter_defaults (ctx : Context σ) (ld : σ.Loader)
    (rawConverter : RawConverter) :
    (rawConverter.InterfaceName ≠ "" → ∀ ld1 t,
      ctx.GetOneRaw ld rawConverter.PackagePath rawConverter.InterfaceName =
        (ld1, Except.ok t) →
      ∃ c, initConverter ctx ld rawConverter = (ld1, Except.ok c) ∧
        c.typ = some t ∧ c.Name = rawConverter.InterfaceName ++ "Impl" ∧
        c.OutputFormat = FormatStruct ∧
        c.OutputFile = "./generated/generated.go" ∧
        c.OutputFile = (DefaultConfigInterface : ConverterConfig σ).OutputFile ∧
        c.OutputPackageName = "generated" ∧
        c.OutputPackageName = (DefaultConfigInterface : ConverterConfig σ).OutputPackageName ∧
        c.OutputPackagePath = (DefaultConfigInterface : ConverterConfig σ).OutputPackagePath ∧
        c.Extend = [] ∧ c.OutputRaw = [] ∧ c.Comments = []) ∧
    (rawConverter.InterfaceName ≠ "" → ∀ ld1 e,
      ctx.GetOneRaw ld rawConverter.PackagePath rawConverter.InterfaceName =
        (ld1, Except.error e) →
      initConverter ctx ld rawConverter = (ld1, Except.error e)) ∧
    (rawConverter.InterfaceName = "" →
      ∃ c, initConverter ctx ld rawConverter = (ld, Except.ok c) ∧
        c.typ = none ∧ c.OutputFormat = FormatVariable ∧
        c.OutputPackagePath = rawConverter.PackagePath ∧
        c.OutputPackageName = rawConverter.PackageName ∧
        c.Extend = [] ∧ c.OutputRaw = [] ∧ c.Comments = []) := by
  refine ⟨?_, ?_, ?_⟩
  · intro hname ld1 t hget
    exact ⟨_, initConverter_interface ctx ld ld1 rawConverter t hname hget, rfl, rfl, rfl, rfl,
      rfl, rfl, rfl, rfl, rfl, rfl, rfl⟩
  · intro hname ld1 e hget
    unfold initConverter
    rw [if_pos hname, hget]
  · intro hname
    exact ⟨_, initConverter_variables ctx ld rawConverter hname, rfl, rfl, rfl, rfl, rfl,
      rfl, rfl⟩

/-- C14 at the interface `Converter` and at the variable-style declaration of
`orders.go`. -/
theorem C14_initConverter_defaults_witness :
    sampleRawInterface.InterfaceName ≠ "" ∧
    sampleCtx.GetOneRaw [] sampleRawInterface.PackagePath sampleRawInterface.InterfaceName =
      (["Converter"], Except.ok "example.org/shop.Converter") ∧
    (∃ c, initConverter sampleCtx [] sampleRawInterface = (["Converter"], Except.ok c) ∧
      c.typ = some "example.org/shop.Converter" ∧
      c.Name = sampleRawInterface.InterfaceName ++ "Impl" ∧
      c.OutputFormat = FormatStruct ∧
      c.OutputFile = "./generated/generated.go" ∧
      c.OutputFile = (DefaultConfigInterface : ConverterConfig sampleSig).OutputFile ∧
      c.OutputPackageName = "generated" ∧
      c.OutputPackageName =
        (DefaultConfigInterface : ConverterConfig sampleSig).OutputPackageName ∧
      c.OutputPackagePath =
        (DefaultConfigInterface : ConverterConfig sampleSig).OutputPackagePath ∧
      c.Extend = [] ∧ c.OutputRaw = [] ∧ c.Comments = []) :=
  ⟨by decide, rfl,
    (C14_initConverter_defaults sampleCtx [] sampleRawInterface).1 (by decide) ["Converter"]
      "example.org/shop.Converter" rfl⟩

/-! ## The extend directive -/

/-- The `extend` case of parseConverterLine. -/
theorem line_extend (ctx : Context σ) (c : Converter σ) (ld : σ.Loader) (value : String)
    (h : (ctx.parseCommand value).1 = configExtend) :
    parseConverterLine ctx c ld value =
      extendLoop ctx (Fields (ctx.parseCommand value).2) c ld := by
  unfold parseConverterLine
  simp [h, configExtend]

/-- When the loader resolves every name, the `extend` loop appends the results
in order and ends in the loader state after the last name. -/
theorem extendLoop_all_resolved (ctx : Context σ) (pkg : String) (opts : ParseOpts σ)
    (names : List String) (c : Converter σ) (ld : σ.Loader)
    (hpkg : c.Package = pkg) (hopts : extendOpts c = opts)
    (hall : ∀ r ∈ (specResolveInOrder ctx pkg opts names ld).2, r.2 = none) :
    extendLoop ctx names c ld =
      { c := { c with Extend := c.Extend ++
          ((specResolveInOrder ctx pkg opts names ld).2.map Prod.fst).flatten },
        ld := (specResolveInOrder ctx pkg opts names ld).1, err := none } := by
  induction names generalizing c ld with
  | nil => simp [extendLoop, specResolveInOrder]
  | cons n ns ih =>
    simp only [specResolveInOrder, List.mem_cons, forall_eq_or_imp] at hall
    obtain ⟨h0, hrest⟩ := hall
    subst hpkg
    subst hopts
    simp only [extendLoop, h0, specResolveInOrder]
    rw [ih { c with Extend := c.Extend ++
        (ctx.GetMatching ld c.Package n (extendOpts c)).2.1 }
      (ctx.GetMatching ld c.Package n (extendOpts c)).1 rfl rfl hrest]
    simp [List.append_assoc]

/-- The `extend` loop over a concatenation runs the second list only when the
first one resolved, from where the first one ended. -/
theorem extendLoop_append (ctx : Context σ) (xs ys : List String) (c : Converter σ)
    (ld : σ.Loader) :
    extendLoop ctx (xs ++ ys) c ld =
      match (extendLoop ctx xs c ld).err with
      | some _ => extendLoop ctx xs c ld
      | none => extendLoop ctx ys (extendLoop ctx xs c ld).c (extendLoop ctx xs c ld).ld := by
  induction xs generalizing c ld with
  | nil => simp [extendLoop]
  | cons n ns ih =>
    simp only [List.cons_append, extendLoop]
    cases h : (ctx.GetMatching ld c.Package n (extendOpts c)).2.2 with
    | none => simpa using ih _ _
    | some e => simp

/-- When the loader resolves the names before `name` and fails on `name`, the
`extend` loop stops there: it returns that error, has appended the results of
the names before it, and the loader is as the failing call left it. -/
theorem extendLoop_first_failure (ctx : Context σ) (pkg : String) (opts : ParseOpts σ)
    (pre post : List String) (name e : String) (c : Converter σ) (ld : σ.Loader)
    (hpkg : c.Package = pkg) (hopts : extendOpts c = opts)
    (hpre : ∀ r ∈ (specResolveInOrder ctx pkg opts pre ld).2, r.2 = none)
    (hfail : (ctx.GetMatching (specResolveInOrder ctx pkg opts pre ld).1 pkg name opts).2.2
      = some e) :
    extendLoop ctx (pre ++ name :: post) c ld =
      { c := { c with Extend := c.Extend ++
          ((specResolveInOrder ctx pkg opts pre ld).2.map Prod.fst).flatten },
        ld := (ctx.GetMatching (specResolveInOrder ctx pkg opts pre ld).1 pkg name opts).1,
        err := some e } := by
  rw [extendLoop_append, extendLoop_all_resolved ctx pkg opts pre c ld hpkg hopts hpre]
  subst hpkg
  subst hopts
  simp only [extendLoop]
  have hfail2 : (ctx.GetMatching (specResolveInOrder ctx c.Package (extendOpts c) pre ld).1
      ({ c with Extend := c.Extend ++
        ((specResolveInOrder ctx c.Package (extendOpts c) pre ld).2.map Prod.fst).flatten } :
        Converter σ).Package name
      (extendOpts ({ c with Extend := c.Extend ++
        ((specResolveInOrder ctx c.Package (extendOpts c) pre ld).2.map Prod.fst).flatten } :
        Converter σ))).2.2 = some e := hfail
  rw [hfail2]
  rfl

/-- C15: for an `extend` directive with the names n1..nk, if the loader
resolves all of them the new Extend is the old one followed by the results
for n1, ..., nk in that order; if ni is the first name that fails, the
directive returns that error, the new Extend is the old one followed by the
results for the names before ni, and the names after ni are never resolved:
the loader is as the failing call left it and the outcome is that of the
directive cut after ni.  In both cases the old Extend is an initial part of
the new one. -/
theorem C15_extend_appends (ctx : Context σ) (c : Converter σ) (ld : σ.Loader)
    (value rest : String) (hcmd : ctx.parseCommand value = (configExtend, rest)) :
    ((∀ r ∈ (specResolveInOrder ctx c.Package (extendOpts c) (Fields rest) ld).2, r.2 = none) →
      (parseConverterLine ctx c ld value).err = none ∧
      (parseConverterLine ctx c ld value).c.Extend = c.Extend ++
        ((specResolveInOrder ctx c.Package (extendOpts c) (Fields rest) ld).2.map
          Prod.fst).flatten ∧
      (parseConverterLine ctx c ld value).ld =
        (specResolveInOrder ctx c.Package (extendOpts c) (Fields rest) ld).1) ∧
    (∀ (pre post : List String) (name e : String),
      Fields rest = pre ++ name :: post →
      (∀ r ∈ (specResolveInOrder ctx c.Package (extendOpts c) pre ld).2, r.2 = none) →
      (ctx.GetMatching (specResolveInOrder ctx c.Package (extendOpts c) pre ld).1
        c.Package name (extendOpts c)).2.2 = some e →
      (parseConverterLine ctx c ld value).err = some e ∧
      (parseConverterLine ctx c ld value).c.Extend = c.Extend ++
        ((specResolveInOrder ctx c.Package (extendOpts c) pre ld).2.map Prod.fst).flatten ∧
      (parseConverterLine ctx c ld value).ld =
        (ctx.GetMatching (specResolveInOrder ctx c.Package (extendOpts c) pre ld).1
          c.Package name (extendOpts c)).1 ∧
      parseConverterLine ctx c ld value = extendLoop ctx (pre ++ [name]) c ld) ∧
    c.Extend <+: (parseConverterLine ctx c ld value).c.Extend := by
  have hc : (ctx.parseCommand value).1 = configExtend := by rw [hcmd]
  have hr : (ctx.parseCommand value).2 = rest := by rw [hcmd]
  have hline := line_extend ctx c ld value hc
  rw [hr] at hline
  refine ⟨?_, ?_, ?_⟩
  · intro hall
    rw [hline, extendLoop_all_resolved ctx c.Package (extendOpts c) (Fields rest) c ld rfl rfl
      hall]
    exact ⟨rfl, rfl, rfl⟩
  · intro pre post name e hsplit hpre hfail
    rw [hline, hsplit,
      extendLoop_first_failure ctx c.Package (extendOpts c) pre post name e c ld rfl rfl hpre
        hfail,
      extendLoop_first_failure ctx c.Package (extendOpts c) pre [] name e c ld rfl rfl hpre
        hfail]
    exact ⟨rfl, rfl, rfl, rfl⟩
  · obtain ⟨more, hm⟩ := extendLoop_c ctx (Fields rest) c ld
    rw [hline, hm]
    exact List.prefix_append _ _

/-- C15 at `extend ToID missing ToName`: ToID is resolved and appended, the
name `missing` fails, and ToName is never asked for. -/
theorem C15_extend_appends_witness :
    sampleCtx.parseCommand "extend ToID missing ToName" =
      (configExtend, "ToID missing ToName") ∧
    Fields "ToID missing ToName" = ["ToID"] ++ "missing" :: ["ToName"] ∧
    (∀ r ∈ (specResolveInOrder sampleCtx sampleInterface.Package (extendOpts sampleInterface)
      ["ToID"] []).2, r.2 = none) ∧
    (sampleCtx.GetMatching
      (specResolveInOrder sampleCtx sampleInterface.Package (extendOpts sampleInterface)
        ["ToID"] []).1
      sampleInterface.Package "missing" (extendOpts sampleInterface)).2.2 =
        some "error parsing type: missing" ∧
    (parseConverterLine sampleCtx sampleInterface [] "extend ToID missing ToName").err =
      some "error parsing type: missing" ∧
    (parseConverterLine sampleCtx sampleInterface [] "extend ToID missing ToName").c.Extend =
      ["example.org/shop.ToID"] ∧
    (parseConverterLine sampleCtx sampleInterface [] "extend ToID missing ToName").ld =
      ["ToID", "missing"] :=
  ⟨by decide, by decide, by decide, by decide,
    ((C15_extend_appends sampleCtx sampleInterface [] "extend ToID missing ToName"
      "ToID missing ToName" (by decide)).2.1 ["ToID"] ["ToName"] "missing"
      "error parsing type: missing" (by decide) (by decide) (by decide)).1,
    by decide, by decide⟩

/-! ## The first failing line -/

/-- When the lines before `value` succeed and `value` fails, the fold stops
there: it ends in the converter and the loader as `value` left them, with the
error of `value` wrapped by formatLineError, whatever lines follow. -/
theorem loop_first_failure (ctx : Context σ) (raw : RawLines) (source : String)
    (pre post : List String) (value e : String) (c : Converter σ) (ld : σ.Loader)
    (hpre : (parseConverterLinesLoop ctx raw source pre c ld).err = none)
    (hfail : (parseConverterLine ctx (parseConverterLinesLoop ctx raw source pre c ld).c
      (parseConverterLinesLoop ctx raw source pre c ld).ld value).err = some e) :
    parseConverterLinesLoop ctx raw source (pre ++ value :: post) c ld =
      { c := (parseConverterLine ctx (parseConverterLinesLoop ctx raw source pre c ld).c
          (parseConverterLinesLoop ctx raw source pre c ld).ld value).c,
        ld := (parseConverterLine ctx (parseConverterLinesLoop ctx raw source pre c ld).c
          (parseConverterLinesLoop ctx raw source pre c ld).ld value).ld,
        err := some (ctx.formatLineError raw source value e) } := by
  rw [loop_append, hpre]
  simp only [parseConverterLinesLoop, hfail]

/-- The label of a converter is "var definition" without subject type and the
string of the subject type otherwise. -/
theorem IDString_cases (ctx : Context σ) (c : Converter σ) :
    (c.typ = none → c.IDString ctx = "var definition") ∧
    (∀ t, c.typ = some t → c.IDString ctx = ctx.typeString t) := by
  constructor
  · intro h
    simp [Converter.IDString, h]
  · intro t h
    simp [Converter.IDString, h]

/-- C16: a fold stops at the first failing line: when the lines before line v
succeed and v fails with e, parseConverterLines ends in the state that v left,
whatever lines follow, and returns e wrapped with the scope label and v.  In
parseConverter a failure of a global line returns no converter and that error
wrapped with the label "global", with no local line applied; a failure of a
local line returns no converter and that error wrapped with IDString, which
is "var definition" without subject type and the string of the subject type
otherwise. -/
theorem C16_first_failure_stops (ctx : Context σ) (ld : σ.Loader)
    (rawConverter : RawConverter) (global : RawLines) :
    (∀ (c : Converter σ) (ld1 : σ.Loader) (source : String) (raw : RawLines)
        (pre post : List String) (v e : String),
      raw.Lines = pre ++ v :: post →
      (parseConverterLinesLoop ctx raw source pre c ld1).err = none →
      (parseConverterLine ctx (parseConverterLinesLoop ctx raw source pre c ld1).c
        (parseConverterLinesLoop ctx raw source pre c ld1).ld v).err = some e →
      parseConverterLines ctx c ld1 source raw =
        { c := (parseConverterLine ctx (parseConverterLinesLoop ctx raw source pre c ld1).c
            (parseConverterLinesLoop ctx raw source pre c ld1).ld v).c,
          ld := (parseConverterLine ctx (parseConverterLinesLoop ctx raw source pre c ld1).c
            (parseConverterLinesLoop ctx raw source pre c ld1).ld v).ld,
          err := some (ctx.formatLineError raw source v e) }) ∧
    (∀ (ld0 : σ.Loader) (c0 : Converter σ),
      initConverter ctx ld rawConverter = (ld0, Except.ok c0) →
      (∀ (pre post : List String) (v e : String),
        global.Lines = pre ++ v :: post →
        (parseConverterLinesLoop ctx global "global" pre c0 ld0).err = none →
        (parseConverterLine ctx (parseConverterLinesLoop ctx global "global" pre c0 ld0).c
          (parseConverterLinesLoop ctx global "global" pre c0 ld0).ld v).err = some e →
        parseConverter ctx ld rawConverter global =
          ((parseConverterLine ctx (parseConverterLinesLoop ctx global "global" pre c0 ld0).c
            (parseConverterLinesLoop ctx global "global" pre c0 ld0).ld v).ld,
            none, some (ctx.formatLineError global "global" v e))) ∧
      (∀ e, (parseConverterLines ctx c0 ld0 "global" global).err = some e →
        parseConverter ctx ld rawConverter global =
          ((parseConverterLines ctx c0 ld0 "global" global).ld, none, some e)) ∧
      ((parseConverterLines ctx c0 ld0 "global" global).err = none →
        ∀ e, (parseConverterLines ctx (parseConverterLines ctx c0 ld0 "global" global).c
            (parseConverterLines ctx c0 ld0 "global" global).ld (c0.IDString ctx)
            rawConverter.Converter).err = some e →
          parseConverter ctx ld rawConverter global =
            ((parseConverterLines ctx (parseConverterLines ctx c0 ld0 "global" global).c
              (parseConverterLines ctx c0 ld0 "global" global).ld (c0.IDString ctx)
              rawConverter.Converter).ld, none, some e)) ∧
      (c0.typ = none → c0.IDString ctx = "var definition") ∧
      (∀ t, c0.typ = some t → c0.IDString ctx = ctx.typeString t)) := by
  refine ⟨?_, ?_⟩
  · intro c ld1 source raw pre post v e hsplit hpre hfail
    unfold parseConverterLines
    rw [hsplit]
    exact loop_first_failure ctx raw source pre post v e c ld1 hpre hfail
  · intro ld0 c0 hinit
    have hid : (parseConverterLines ctx c0 ld0 "global" global).c.IDString ctx =
        c0.IDString ctx := by
      unfold Converter.IDString parseConverterLines
      rw [(loop_frame ctx global "global" global.Lines c0 ld0).1]
    have hglobal : ∀ e, (parseConverterLines ctx c0 ld0 "global" global).err = some e →
        parseConverter ctx ld rawConverter global =
          ((parseConverterLines ctx c0 ld0 "global" global).ld, none, some e) := by
      intro e he
      unfold parseConverter
      rw [hinit]
      simp only [he]
    refine ⟨?_, hglobal, ?_, (IDString_cases ctx c0).1, (IDString_cases ctx c0).2⟩
    · intro pre post v e hsplit hpre hfail
      have hg := loop_first_failure ctx global "global" pre post v e c0 ld0 hpre hfail
      rw [← hsplit] at hg
      have hg2 : parseConverterLines ctx c0 ld0 "global" global = _ := hg
      have := hglobal (ctx.formatLineError global "global" v e) (by rw [hg2])
      rw [this, hg2]
    · intro hok e he
      unfold parseConverter
      rw [hinit]
      simp only [hok, hid, he]

/-- C16 at the interface-style declaration with the global lines
`output:raw // a`, `bogus setting`, `output:raw // b`: the second line fails
and parseConverter returns no converter and its error wrapped with "global". -/
theorem C16_first_failure_stops_witness :
    initConverter sampleCtx [] sampleRawInterface = (["Converter"], Except.ok sampleInterface) ∧
    (parseConverterLinesLoop sampleCtx
      { Location := "global.go:1", Lines := ["output:raw // a", "bogus setting", "output:raw // b"] }
      "global" ["output:raw // a"] sampleInterface ["Converter"]).err = none ∧
    (parseConverterLine sampleCtx
      (parseConverterLinesLoop sampleCtx
        { Location := "global.go:1",
          Lines := ["output:raw // a", "bogus setting", "output:raw // b"] }
        "global" ["output:raw // a"] sampleInterface ["Converter"]).c
      (parseConverterLinesLoop sampleCtx
        { Location := "global.go:1",
          Lines := ["output:raw // a", "bogus setting", "output:raw // b"] }
        "global" ["output:raw // a"] sampleInterface ["Converter"]).ld
      "bogus setting").err = some "unknown setting: bogus" ∧
    parseConverter sampleCtx [] sampleRawInterface
      { Location := "global.go:1", Lines := ["output:raw // a", "bogus setting", "output:raw // b"] }
      = (["Converter"], none,
        some "global.go:1: global: bogus setting: unknown setting: bogus") :=
  ⟨rfl, by decide, by decide,
    ((C16_first_failure_stops sampleCtx [] sampleRawInterface
      { Location := "global.go:1",
        Lines := ["output:raw // a", "bogus setting", "output:raw // b"] }).2
      ["Converter"] sampleInterface rfl).1 ["output:raw // a"] ["output:raw // b"]
      "bogus setting" "unknown setting: bogus" rfl (by decide) (by decide)⟩

/-! ## Empty `output:format` and the fields no line writes -/

/-- C17 as stated fails: on a converter with an extend function the
directive `output:format` with an empty remainder returns the error about
extend functions. -/
theorem C17_counterexample :
    sampleCtx.parseCommand "output:format" = ("output:format", "") ∧
    Fields "" = [] ∧
    (parseConverterLine sampleCtx sampleExtended [] "output:format").err =
      some formatAfterExtendError := by
  refine ⟨?_, ?_, ?_⟩ <;> decide

/-- C17, amended: on a converter with empty Extend an `output:format`
directive whose remainder has no field returns no error and leaves the
converter and the loader as they were; on a converter with non-empty Extend
it leaves them as they were and returns the error about extend functions. -/
theorem C17_empty_format_noop (ctx : Context σ) (c : Converter σ) (ld : σ.Loader)
    (value rest : String)
    (hcmd : ctx.parseCommand value = ("output:format", rest))
    (hfields : Fields rest = []) :
    (c.Extend = [] →
      parseConverterLine ctx c ld value = { c := c, ld := ld, err := none }) ∧
    (c.Extend ≠ [] →
      parseConverterLine ctx c ld value =
        { c := c, ld := ld, err := some formatAfterExtendError }) := by
  constructor
  · intro hext
    rw [line_format_empty ctx c ld value rest hext hcmd]
    unfold parseConverterFormatLine
    rw [hfields]
  · intro hext
    exact format_rejected_of_extend ctx c ld value hext (by rw [hcmd])

/-- C17, amended, at `output:format` with a blank remainder on the
interface-style default. -/
theorem C17_empty_format_noop_witness :
    sampleCtx.parseCommand "output:format   " = ("output:format", "") ∧
    Fields "" = [] ∧
    sampleInterface.Extend = [] ∧
    parseConverterLine sampleCtx sampleInterface [] "output:format   " =
      { c := sampleInterface, ld := [], err := none } :=
  ⟨by decide, by decide, rfl,
    (C17_empty_format_noop sampleCtx sampleInterface [] "output:format   " "" (by decide)
      (by decide)).1 rfl⟩

/-- C18: no directive line, whether it succeeds or fails, writes the subject
type, Package, FileName or Location; the converter stays interface-style or
variable-style and IDString returns the same label after any line and after
any fold. -/
theorem C18_subject_type_never_reassigned (ctx : Context σ) (c : Converter σ)
    (ld : σ.Loader) (value source : String) (raw : RawLines) :
    (parseConverterLine ctx c ld value).c.typ = c.typ ∧
    (parseConverterLine ctx c ld value).c.Package = c.Package ∧
    (parseConverterLine ctx c ld value).c.FileName = c.FileName ∧
    (parseConverterLine ctx c ld value).c.Location = c.Location ∧
    (parseConverterLine ctx c ld value).c.IDString ctx = c.IDString ctx ∧
    (parseConverterLines ctx c ld source raw).c.typ = c.typ ∧
    (parseConverterLines ctx c ld source raw).c.Package = c.Package ∧
    (parseConverterLines ctx c ld source raw).c.FileName = c.FileName ∧
    (parseConverterLines ctx c ld source raw).c.Location = c.Location ∧
    (parseConverterLines ctx c ld source raw).c.IDString ctx = c.IDString ctx ∧
    ((parseConverterLines ctx c ld source raw).c.typ.isSome = c.typ.isSome) := by
  have hl := line_frame ctx c ld value
  have hf := loop_frame ctx raw source raw.Lines c ld
  refine ⟨hl.1, hl.2.1, hl.2.2.1, hl.2.2.2.1, ?_, hf.1, hf.2.1, hf.2.2.1, hf.2.2.2.1, ?_, ?_⟩
  · unfold Converter.IDString
    rw [hl.1]
  · unfold Converter.IDString parseConverterLines
    rw [hf.1]
  · unfold parseConverterLines
    rw [hf.1]

/-! ## Package value and package identity -/

/-- The parts of a value before and after its first colon, joined by a colon,
are the value. -/
theorem colon_parts_join (l : List Char) (hmem : ':' ∈ l) :
    l.takeWhile (fun ch => ch ≠ ':') ++ ':' :: (l.dropWhile (fun ch => ch ≠ ':')).drop 1 = l := by
  obtain ⟨r, hr⟩ := dropWhile_ne_of_mem ':' l hmem
  have h := List.takeWhile_append_dropWhile (fun ch => decide (ch ≠ ':')) l
  rw [hr] at h ⊢
  exact h

/-- The parts of `a:` for a value a without colon: a and nothing. -/
theorem colon_parts_trailing (a : List Char) (hmem : ':' ∉ a) :
    (a ++ [':']).takeWhile (fun ch => ch ≠ ':') = a ∧
    ((a ++ [':']).dropWhile (fun ch => ch ≠ ':')).drop 1 = [] := by
  induction a with
  | nil => exact ⟨by simp, by simp⟩
  | cons b bs ih =>
    have hb : b ≠ ':' := fun h => hmem (by simp [h])
    have hbs : ':' ∉ bs := fun h => hmem (by simp [h])
    obtain ⟨h1, h2⟩ := ih hbs
    constructor
    · rw [List.cons_append, List.takeWhile_cons_of_pos (by simpa using hb), h1]
    · rw [List.cons_append, List.dropWhile_cons_of_pos (by simpa using hb), h2]

/-- C19: after an `output:package` directive whose value parses to p,
PackageID is p when p has no colon or has a non-empty part after its first
colon, and is p without the colon when the first colon of p is its last
character, so that `a:` and `a` give the same identity. -/
theorem C19_package_roundtrip (ctx : Context σ) (c : Converter σ) (ld : σ.Loader)
    (value rest p : String)
    (hcmd : ctx.parseCommand value = ("output:package", rest))
    (hparse : ctx.parseString rest = (p, none)) :
    ((':' ∉ p.data ∨ (p.data.dropWhile (fun ch => ch ≠ ':')).drop 1 ≠ []) →
      (parseConverterLine ctx c ld value).c.toConverterConfig.PackageID = p) ∧
    (∀ a : String, ':' ∉ a.data → p = a ++ ":" →
      (parseConverterLine ctx c ld value).c.toConverterConfig.PackageID = a ∧
      ∀ (value2 rest2 : String), ctx.parseCommand value2 = ("output:package", rest2) →
        ctx.parseString rest2 = (a, none) →
        (parseConverterLine ctx c ld value2).c.toConverterConfig.PackageID =
          (parseConverterLine ctx c ld value).c.toConverterConfig.PackageID) := by
  have hline : ∀ (v r q : String), ctx.parseCommand v = ("output:package", r) →
      ctx.parseString r = (q, none) →
      (parseConverterLine ctx c ld v).c.toConverterConfig.PackageID =
        if String.mk ((q.data.dropWhile (fun ch => ch ≠ ':')).drop 1) = "" then
          String.mk (q.data.takeWhile (fun ch => ch ≠ ':'))
        else String.mk (q.data.takeWhile (fun ch => ch ≠ ':')) ++ ":" ++
          String.mk ((q.data.dropWhile (fun ch => ch ≠ ':')).drop 1) := by
    intro v r q hv hq
    have hc : (ctx.parseCommand v).1 = "output:package" := by rw [hv]
    have hr : (ctx.parseCommand v).2 = r := by rw [hv]
    rw [line_package ctx c ld v hc, hr, outputPackage_parsed ctx c r q none hq]
    rfl
  have hnocolon : ∀ q : String, ':' ∉ q.data →
      (if String.mk ((q.data.dropWhile (fun ch => ch ≠ ':')).drop 1) = "" then
          String.mk (q.data.takeWhile (fun ch => ch ≠ ':'))
        else String.mk (q.data.takeWhile (fun ch => ch ≠ ':')) ++ ":" ++
          String.mk ((q.data.dropWhile (fun ch => ch ≠ ':')).drop 1)) = q := by
    intro q hq
    rw [takeWhile_no_colon q.data hq, dropWhile_no_colon q.data hq]
    rfl
  have htrailing : ∀ a : String, ':' ∉ a.data →
      (if String.mk (((a ++ ":").data.dropWhile (fun ch => ch ≠ ':')).drop 1) = "" then
          String.mk ((a ++ ":").data.takeWhile (fun ch => ch ≠ ':'))
        else String.mk ((a ++ ":").data.takeWhile (fun ch => ch ≠ ':')) ++ ":" ++
          String.mk (((a ++ ":").data.dropWhile (fun ch => ch ≠ ':')).drop 1)) = a := by
    intro a ha
    have hd : (a ++ ":").data = a.data ++ [':'] := by
      rw [String.data_append]
    rw [hd, (colon_parts_trailing a.data ha).1, (colon_parts_trailing a.data ha).2]
    rfl
  refine ⟨?_, ?_⟩
  · intro h
    rw [hline value rest p hcmd hparse]
    by_cases hmem : ':' ∈ p.data
    · have hafter : (p.data.dropWhile (fun ch => ch ≠ ':')).drop 1 ≠ [] := by
        rcases h with h | h
        · exact absurd hmem h
        · exact h
      have hne : ¬ String.mk ((p.data.dropWhile (fun ch => ch ≠ ':')).drop 1) = "" := by
        intro h0
        exact hafter (congrArg String.data h0)
      rw [if_neg hne]
      apply String.ext
      simp only [String.data_append]
      rw [List.append_assoc]
      exact colon_parts_join p.data hmem
    · exact hnocolon p hmem
  · intro a ha hp
    have h1 : (parseConverterLine ctx c ld value).c.toConverterConfig.PackageID = a := by
      rw [hline value rest p hcmd hparse, hp]
      exact htrailing a ha
    refine ⟨h1, ?_⟩
    intro value2 rest2 hcmd2 hparse2
    rw [h1, hline value2 rest2 a hcmd2 hparse2]
    exact hnocolon a ha

/-- C19 at the values `a:b`, which is kept, and `a:`, which gives the identity
of `a`. -/
theorem C19_package_roundtrip_witness :
    sampleCtx.parseCommand "output:package a:b" = ("output:package", "a:b") ∧
    sampleCtx.parseString "a:b" = ("a:b", none) ∧
    ("a:b".data.dropWhile (fun ch => ch ≠ ':')).drop 1 ≠ [] ∧
    (parseConverterLine sampleCtx sampleInterface []
      "output:package a:b").c.toConverterConfig.PackageID = "a:b" ∧
    sampleCtx.parseCommand "output:package a:" = ("output:package", "a:") ∧
    sampleCtx.parseString "a:" = ("a:", none) ∧
    ':' ∉ "a".data ∧ "a:" = "a" ++ ":" ∧
    (parseConverterLine sampleCtx sampleInterface []
      "output:package a:").c.toConverterConfig.PackageID = "a" :=
  ⟨by decide, by decide, by decide,
    (C19_package_roundtrip sampleCtx sampleInterface [] "output:package a:b" "a:b" "a:b"
      (by decide) (by decide)).1 (Or.inr (by decide)),
    by decide, by decide, by decide, by decide,
    ((C19_package_roundtrip sampleCtx sampleInterface [] "output:package a:" "a:" "a:"
      (by decide) (by decide)).2 "a" (by decide) (by decide)).1⟩

/-! ## A rejected `output:format` has already written the format -/

/-- When parseConverterFormatLine rejects a remainder whose first field parsed
to the format f0, the converter it leaves is the old one with OutputFormat
set to f0. -/
theorem formatLine_rejected (ctx : Context σ) (c : Converter σ) (rest f0 : String)
    (fs : List String) (hfields : Fields rest = f0 :: fs)
    (henum : ctx.parseEnum "format" false f0
      [FormatFunction, FormatStruct, FormatVariable, FormatMethod] = (f0, none))
    (hrej : (parseConverterFormatLine ctx c rest).2 ≠ none) :
    (parseConverterFormatLine ctx c rest).1 = { c with OutputFormat := f0 } := by
  unfold parseConverterFormatLine at hrej ⊢
  rw [hfields] at hrej ⊢
  simp only [henum] at hrej ⊢
  split_ifs at hrej ⊢
  all_goals first
    | rfl
    | exact absurd rfl hrej

/-- The error that parseConverterFormatLine returns for a remainder whose
first field parsed to the format f0, by format and field count. -/
theorem formatLine_errors (ctx : Context σ) (c : Converter σ) (rest f0 : String)
    (fs : List String) (hfields : Fields rest = f0 :: fs)
    (henum : ctx.parseEnum "format" false f0
      [FormatFunction, FormatStruct, FormatVariable, FormatMethod] = (f0, none)) :
    ((f0 = FormatStruct ∨ f0 = FormatFunction ∨ f0 = FormatVariable) → fs ≠ [] →
      (parseConverterFormatLine ctx c rest).2 =
        some (fieldCountError "one value" (f0 :: fs))) ∧
    (f0 = FormatMethod → fs.length ≠ 1 →
      (parseConverterFormatLine ctx c rest).2 =
        some (fieldCountError "two values" (f0 :: fs))) ∧
    (f0 = FormatVariable → fs = [] → c.typ ≠ none →
      (parseConverterFormatLine ctx c rest).2 =
        some "unsupported format for goverter:converter") := by
  unfold parseConverterFormatLine
  rw [hfields]
  simp only [henum]
  refine ⟨?_, ?_, ?_⟩
  · intro hf0 hfs
    rcases hf0 with h | h | h <;> subst h <;>
      simp [hfs, FormatStruct, FormatFunction, FormatVariable]
  · intro hf0 hfs
    subst hf0
    simp [hfs, FormatStruct, FormatFunction, FormatVariable, FormatMethod]
  · intro hf0 hfs htyp
    subst hf0
    subst hfs
    cases ht : c.typ with
    | none => exact absurd ht htyp
    | some t => simp [FormatStruct, FormatFunction, FormatVariable]

/-- C20: on a converter with empty Extend, an `output:format` directive whose
first field is a recognised format name and which is rejected returns its
error with OutputFormat already set to the requested format and nothing else
written, so the converter has changed whenever its format was another one.
The rejections are: more than one field for struct, function and
assign-variable, a field count other than two for method, and assign-variable
on a converter with a subject type.  The rejection for a non-empty Extend
leaves the converter as it was. -/
theorem C20_failing_format_not_atomic (ctx : Context σ) (c : Converter σ) (ld : σ.Loader)
    (value rest f0 : String) (fs : List String) (hext : c.Extend = [])
    (hcmd : ctx.parseCommand value = ("output:format", rest))
    (hfields : Fields rest = f0 :: fs)
    (henum : ctx.parseEnum "format" false f0
      [FormatFunction, FormatStruct, FormatVariable, FormatMethod] = (f0, none)) :
    ((parseConverterLine ctx c ld value).err ≠ none →
      (parseConverterLine ctx c ld value).c = { c with OutputFormat := f0 } ∧
      (parseConverterLine ctx c ld value).c.OutputFormat = f0 ∧
      (c.OutputFormat ≠ f0 → (parseConverterLine ctx c ld value).c ≠ c)) ∧
    ((f0 = FormatStruct ∨ f0 = FormatFunction ∨ f0 = FormatVariable) → fs ≠ [] →
      (parseConverterLine ctx c ld value).err =
        some (fieldCountError "one value" (f0 :: fs))) ∧
    (f0 = FormatMethod → fs.length ≠ 1 →
      (parseConverterLine ctx c ld value).err =
        some (fieldCountError "two values" (f0 :: fs))) ∧
    (f0 = FormatVariable → fs = [] → c.typ ≠ none →
      (parseConverterLine ctx c ld value).err =
        some "unsupported format for goverter:converter") ∧
    (∀ c2 : Converter σ, c2.Extend ≠ [] →
      (parseConverterLine ctx c2 ld value).err = some formatAfterExtendError ∧
      (parseConverterLine ctx c2 ld value).c = c2) := by
  have hline := line_format_empty ctx c ld value rest hext hcmd
  have herrs := formatLine_errors ctx c rest f0 fs hfields henum
  refine ⟨?_, ?_, ?_, ?_, ?_⟩
  · intro hrej
    rw [hline] at hrej ⊢
    have hc := formatLine_rejected ctx c rest f0 fs hfields henum hrej
    refine ⟨hc, by rw [hc], ?_⟩
    intro hne heq
    apply hne
    have h2 : (parseConverterFormatLine ctx c rest).1 = c := heq
    rw [hc] at h2
    exact (congrArg (fun x : Converter σ => x.OutputFormat) h2).symm
  · intro h1 h2
    rw [hline]
    exact herrs.1 h1 h2
  · intro h1 h2
    rw [hline]
    exact herrs.2.1 h1 h2
  · intro h1 h2 h3
    rw [hline]
    exact herrs.2.2 h1 h2 h3
  · intro c2 hext2
    rw [format_rejected_of_extend ctx c2 ld value hext2 (by rw [hcmd])]
    exact ⟨rfl, rfl⟩

/-- C20 at `output:format assign-variable` on the interface-style default:
rejected, with the format struct already replaced by assign-variable. -/
theorem C20_failing_format_not_atomic_witness :
    sampleInterface.Extend = [] ∧
    sampleCtx.parseCommand "output:format assign-variable" =
      ("output:format", "assign-variable") ∧
    Fields "assign-variable" = ["assign-variable"] ∧
    sampleCtx.parseEnum "format" false "assign-variable"
      [FormatFunction, FormatStruct, FormatVariable, FormatMethod] =
      ("assign-variable", none) ∧
    (parseConverterLine sampleCtx sampleInterface [] "output:format assign-variable").err
      ≠ none ∧
    sampleInterface.OutputFormat = FormatStruct ∧
    (parseConverterLine sampleCtx sampleInterface []
      "output:format assign-variable").c.OutputFormat = FormatVariable :=
  ⟨rfl, by decide, by decide, by decide, by decide, rfl,
    ((C20_failing_format_not_atomic sampleCtx sampleInterface []
      "output:format assign-variable" "assign-variable" "assign-variable" [] rfl (by decide)
      (by decide) (by decide)).1 (by decide)).2.1⟩

end Goverter
